import Mathlib

/-!
Verification of the request-to-content resolver and renderer of the Astro
runtime (`src/runtime/index.ts` together with the page-search module
`search.ts`).  The development shallowly embeds the routing, collection
pagination and error-classification logic as executable Lean functions and
settles the specification claims against them.

Conventions of the embedding:
* JavaScript strings are Lean `String`s; every string primitive used by the
  source (`endsWith`, `substr`, `split`, `replace` with the concrete regexes
  appearing in the source, `parseInt`, template interpolation of numbers) is
  re-implemented structurally over `String.data` so that all definitions
  reduce inside the kernel.
* The file system under the pages root is a list of (normalized, relative)
  file paths; `existsSync` becomes list membership.  The `tiny-glob`
  enumeration of collection files (`**/$*.astro`) is an input list in
  enumeration order.
* External collaborators (static server, Vite transform / module loader,
  internal asset loader, `getSrcPath`, `canonicalURL`, `mime`) are fields of
  an environment record, exactly at the interface boundary the code uses.
* Thrown JS exceptions are `Except` errors carrying a `JsError` value that
  records the error class (`SyntaxError`, `ReferenceError`, `NotFoundError`,
  plain `Error`), the optional `code` property and the message, which is all
  the catch-block of `load` inspects.
-/

set_option maxRecDepth 8000

namespace Astro

/-- JS digit test for the regex class `\d` (exactly the characters 0-9). -/
def jsDigit (c : Char) : Bool := c.isDigit

/-- Whitespace skipped by `parseInt` (the common JS WhiteSpace characters). -/
def jsWhitespace (c : Char) : Bool :=
  c = ' ' || c = '\t' || c = '\n' || c = '\r'

/-- Numeric value of a digit character. -/
def digitVal (c : Char) : ℕ := c.toNat - 48

/-- Value of a digit string, most significant digit first. -/
def digitsVal (ds : List Char) : ℕ := ds.foldl (fun a c => 10 * a + digitVal c) 0

/-- The decimal digit character for a value below ten. -/
def digitChar (n : ℕ) : Char :=
  match n with
  | 0 => '0' | 1 => '1' | 2 => '2' | 3 => '3' | 4 => '4'
  | 5 => '5' | 6 => '6' | 7 => '7' | 8 => '8' | _ => '9'

/-- Decimal digits of a natural number; the fuel argument makes the
recursion structural (any fuel above the number itself is enough). -/
def natDecimalAux : ℕ → ℕ → List Char
  | 0, _ => []
  | fuel + 1, n =>
    if n < 10 then [digitChar n]
    else natDecimalAux fuel (n / 10) ++ [digitChar (n % 10)]

/-- Decimal rendering of a natural number, modelling JS `${n}` for n ≥ 0. -/
def natDecimal (n : ℕ) : String := ⟨natDecimalAux (n + 1) n⟩

/-- Decimal rendering of an integer, modelling JS `${n}`. -/
def intDecimal (i : Int) : String :=
  if i < 0 then "-" ++ natDecimal i.natAbs else natDecimal i.toNat

/-- JS `String.prototype.endsWith`. -/
def strEndsWith (s t : String) : Bool := t.data.reverse.isPrefixOf s.data.reverse

/-- JS `String.prototype.startsWith`. -/
def strStartsWith (s t : String) : Bool := t.data.isPrefixOf s.data

/-- JS `String.prototype.substr(n)` (drop the first n characters). -/
def strDrop (s : String) (n : ℕ) : String := ⟨s.data.drop n⟩

/-- Take the first n characters of a string. -/
def strTake (s : String) (n : ℕ) : String := ⟨s.data.take n⟩

/-- Character length of a string. -/
def strLen (s : String) : ℕ := s.data.length

/-- Substring occurrence test, used for JS `String.prototype.includes`. -/
def containsAux (sub : List Char) : List Char → Bool
  | [] => sub.isEmpty
  | c :: t => sub.isPrefixOf (c :: t) || containsAux sub t

/-- JS `s.includes(sub)`. -/
def jsIncludes (s sub : String) : Bool := containsAux sub.data s.data

/-- First index at which `sub` occurs in the character list, JS `indexOf`. -/
def idxOfAux (sub : List Char) : List Char → ℕ → Option ℕ
  | [], i => if sub.isEmpty then some i else none
  | c :: t, i => if sub.isPrefixOf (c :: t) then some i else idxOfAux sub t (i + 1)

/-- JS `s.indexOf(sub)` returning `none` for -1. -/
def strIndexOfSub (s sub : String) : Option ℕ := idxOfAux sub.data s.data 0

/-- JS `String.prototype.split` with a single-character separator. -/
def splitOnChar (sep : Char) : List Char → List (List Char)
  | [] => [[]]
  | c :: t =>
    match splitOnChar sep t with
    | [] => if c = sep then [[], []] else [[c]]
    | h :: r => if c = sep then [] :: h :: r else (c :: h) :: r

/-- JS `parseInt(s, 10)`: skip whitespace, optional sign, then the longest
digit prefix; `none` models `NaN`. -/
def jsParseInt (s : String) : Option Int :=
  let cs := s.data.dropWhile jsWhitespace
  let cs2 := if cs.head? = some '-' || cs.head? = some '+' then cs.tail else cs
  let ds := cs2.takeWhile jsDigit
  if ds = [] then none
  else if cs.head? = some '-' then some (-(digitsVal ds : Int))
  else some ((digitsVal ds : Int))

/-- JS `x || 1` on an optional number (`undefined`, `0` are falsy). -/
def jsOr1 (o : Option Int) : Int :=
  match o with
  | none => 1
  | some n => if n = 0 then 1 else n

/-- JS `x || d` on integers (only `0` is falsy). -/
def jsOrIntDefault (x d : Int) : Int := if x = 0 then d else x

/-- JS truthiness of an optional number: `some c` with `c ≠ 0`. -/
def jsToTruthyInt (o : Option Int) : Option Int :=
  match o with
  | none => none
  | some n => if n = 0 then none else some n

/-- JS truthiness of an optional string (`undefined` and `""` are falsy). -/
def jsTruthyStrOpt (o : Option String) : Bool :=
  match o with
  | none => false
  | some s => s ≠ ""

/-- Node `path.extname` (posix): the suffix of the basename starting at its
last dot, empty when the basename has no dot, starts with its only dot, or
is the special entry `..`. -/
def extname (p : String) : String :=
  let b := (p.data.reverse.takeWhile (fun c => c ≠ '/')).reverse
  let r := b.reverse
  let afterDot := r.takeWhile (fun c => c ≠ '.')
  if afterDot.length = r.length then ""
  else if afterDot.length + 1 = r.length then ""
  else if b = ['.', '.'] then ""
  else ⟨'.' :: afterDot.reverse⟩

/-! ### The concrete regex operations appearing in the source

Each `replace…`/match function below implements the semantics of one literal
regular expression of the source on the shapes a JS engine produces
(leftmost match, greedy quantifiers, `.` excluding line terminators). -/

/-- Validity of the match of `/\$([^\/]+)\.astro/` starting at index `i` and
with the capturing group ending (exclusively) at index `j`. -/
def dollarGroupOk (cs : List Char) (i j : ℕ) : Bool :=
  decide (i + 2 ≤ j) && ".astro".data.isPrefixOf (cs.drop j)
    && ((cs.drop (i + 1)).take (j - (i + 1))).all (fun c => c ≠ '/')

/-- Largest group end `j ≤ bound` accepted at start `i` (the greedy `[^\/]+`
backtracks from the right). -/
def dollarGroupEnd (cs : List Char) (i : ℕ) : ℕ → Option ℕ
  | 0 => if dollarGroupOk cs i 0 then some 0 else none
  | j + 1 => if dollarGroupOk cs i (j + 1) then some (j + 1) else dollarGroupEnd cs i j

/-- Leftmost start position of a match of `/\$([^\/]+)\.astro/`, scanning at
most `count` positions from `i`. -/
def dollarStart (cs : List Char) : ℕ → ℕ → Option (ℕ × ℕ)
  | 0, _ => none
  | count + 1, i =>
    match if cs[i]? = some '$' then dollarGroupEnd cs i cs.length else none with
    | some j => some (i, j)
    | none => dollarStart cs count (i + 1)

/-- JS `pageURL.replace(/\$([^\/]+)\.astro/, '$1')`: the first `$name.astro`
occurrence is replaced by the captured parameter name. -/
def replaceDollarAstro (s : String) : String :=
  let cs := s.data
  match dollarStart cs (cs.length + 1) 0 with
  | none => s
  | some (i, j) => ⟨cs.take i ++ (cs.drop (i + 1)).take (j - (i + 1)) ++ cs.drop (j + 6)⟩

/-- Match of `new RegExp('^/' + name + '(?:/(.*)|/?$)')` against `url`
(the parameter name is alphanumeric in practice, hence literal):
`none` = no match, `some none` = match with an undefined group,
`some (some rest)` = match capturing `rest` (truncated at a line
terminator, which `.` does not cross). -/
def jsCollectionMatch (name url : String) : Option (Option String) :=
  if url = "/" ++ name then some none
  else if strStartsWith url ("/" ++ name ++ "/") then
    some (some ⟨(url.data.drop (name.data.length + 2)).takeWhile
      (fun c => c ≠ '\n' && c ≠ '\r')⟩)
  else none

/-- JS `s.replace(/(\/\d+)?$/, rep)`: when the final path segment is a
nonempty all-digit run preceded by `/`, that `/digits` suffix is replaced,
otherwise `rep` is appended (the optional group matches empty at the end). -/
def replaceTrailingPageOpt (s rep : String) : String :=
  let rs := s.data.reverse
  let ds := rs.takeWhile jsDigit
  if ds ≠ [] ∧ (rs.drop ds.length).head? = some '/' then
    (⟨(rs.drop (ds.length + 1)).reverse⟩ : String) ++ rep
  else s ++ rep

/-- JS `s.replace(/\d+$/, rep)`: the maximal trailing digit run, when
nonempty, is replaced by `rep`; otherwise the string is unchanged. -/
def replaceTrailingDigits (s rep : String) : String :=
  let rs := s.data.reverse
  let ds := rs.takeWhile jsDigit
  if ds = [] then s else (⟨(rs.drop ds.length).reverse⟩ : String) ++ rep

/-- JS `s.replace(/\/1$/, '')`: drop a literal `/1` suffix. -/
def replaceSlash1 (s : String) : String :=
  if strEndsWith s "/1" then strTake s (strLen s - 2) else s

/-- JS `s.replace(/\/?$/, '/index.html')` from the catch block. -/
def replaceTrailingSlashIndexHtml (s : String) : String :=
  if strEndsWith s "/" then strTake s (strLen s - 1) ++ "/index.html"
  else s ++ "/index.html"

/-- First match of `/\(([^\)]+)\)/`: the characters between the leftmost
`(` that is followed by a nonempty run of non-`)` characters and a `)`. -/
def parenGroupAux : List Char → Option (List Char)
  | [] => none
  | c :: rest =>
    if c = '(' then
      let grp := rest.takeWhile (fun x => x ≠ ')')
      if grp.length ≠ 0 ∧ grp.length < rest.length then some grp
      else parenGroupAux rest
    else parenGroupAux rest

/-- JS `s.match(/\(([^\)]+)\)/)` returning the captured group. -/
def parenGroup (s : String) : Option String := (parenGroupAux s.data).map (⟨·⟩)

/-! ### The page search module (`search.ts`) -/

/-- Result of `searchForPage`; `location` is the path of the resolved source
file relative to the pages root (the source wraps it in a file URL). -/
inductive SearchResult where
  | found (location : String) (pathname : String) (currentPage : Option Int)
  | redirect (pathname : String)
  | notFound
deriving DecidableEq, Repr

/-- `findAnyPage`: first candidate path that exists under the pages root. -/
def findAnyPage (candidates : List String) (fs : List String) : Option String :=
  candidates.find? (fun c => fs.contains c)

/-- `currentPage` extraction of `loadCollection` from the captured group:
split the remainder on `/`, keep nonempty segments, and take `parseInt` of
the last one when it is a truthy (nonzero, non-NaN) number. -/
def collectionPageOf (m1 : Option String) : Option Int :=
  match m1 with
  | none => none
  | some rest =>
    if rest = "" then none
    else
      let segments := (splitOnChar '/' rest.data).filter (fun seg => seg ≠ [])
      match segments.getLast? with
      | none => none
      | some lastSeg =>
        match jsParseInt ⟨lastSeg⟩ with
        | none => none
        | some n => if n = 0 then none else some n

/-- `loadCollection`: try every collection file (the `**/$*.astro` glob
result, in enumeration order) and return the first whose derived pattern
matches the request path, together with the extracted page number. -/
def loadCollection (url : String) (cfiles : List String) : Option (String × Option Int) :=
  cfiles.findSome? (fun pageURL =>
    match jsCollectionMatch (replaceDollarAstro pageURL) url with
    | none => none
    | some m1 => some (pageURL, collectionPageOf m1))

/-- `searchForPage`: resolve a decoded request path against the pages root.
`fs` is the set of files under the pages root, `cfiles` the collection
files.  The built-in 500 page resolves to an internal frontend asset. -/
def searchForPage (reqPath : String) (fs cfiles : List String) : SearchResult :=
  let base := strDrop reqPath 1
  let firstTry :=
    if strEndsWith reqPath "/" then
      findAnyPage [base ++ "index.astro", base ++ "index.md"] fs
    else
      findAnyPage [base ++ ".astro", base ++ ".md"] fs
  match firstTry with
  | some loc => .found loc reqPath none
  | none =>
    match findAnyPage [base ++ "/index.astro", base ++ "/index.md"] fs with
    | some _ => .redirect (reqPath ++ "/")
    | none =>
      let afterCollection :=
        if reqPath = "/500" then SearchResult.found "frontend/500.astro" reqPath none
        else .notFound
      if extname reqPath = "" then
        match loadCollection reqPath cfiles with
        | some (loc, cp) => .found loc reqPath (some (jsOr1 cp))
        | none => afterCollection
      else afterCollection

/-! ### Data model of the runtime (`runtime/index.ts`) -/

/-- A JS page-size number: a finite integer or `Infinity`. -/
inductive PageSize where
  | fin (n : Int)
  | inf
deriving DecidableEq, Repr

/-- Route parameters (a JS record of string values). -/
def Params := List (String × String)
deriving instance DecidableEq, Repr for Params

/-- The class of a thrown JS error object. -/
inductive JsErrorClass where
  | syntaxError
  | referenceError
  | notFoundError
  | plain
deriving DecidableEq, Repr

/-- A thrown JS error as far as the catch block of `load` inspects it:
its class, its optional `code` property and its message. -/
structure JsError where
  cls : JsErrorClass
  code : Option String
  message : String
deriving DecidableEq, Repr

/-- `Error.prototype.toString()`. -/
def errName : JsErrorClass → String
  | .syntaxError => "SyntaxError"
  | .referenceError => "ReferenceError"
  | .notFoundError => "NotFoundError"
  | .plain => "Error"

/-- JS `err.toString()`: the error name, then `": "` and the message when
the message is nonempty. -/
def errToString (e : JsError) : String :=
  if e.message = "" then errName e.cls else errName e.cls ++ ": " ++ e.message

/-- RSS feed metadata declared by a collection (opaque to the engine). -/
def RssMeta := String
deriving instance DecidableEq, Repr for RssMeta

/-- The object returned by a page module's `createCollection()`.  `keys` is
`Object.keys` of the literal object in order; the loader may itself throw,
and returns either an array, a single (truthy) record, or nothing. -/
structure CreateCollection (Item : Type) where
  keys : List String
  data : Option (Params → Except JsError (Option (List Item ⊕ Item)))
  routes : Option (List Params)
  permalink : Option (Params → String)
  pageSize : Option PageSize
  rss : Option RssMeta

/-- `page` block of the computed collection state. -/
structure PageInfo where
  current : Int
  size : PageSize
  last : Int
deriving DecidableEq, Repr

/-- `url` block of the computed collection state. -/
structure UrlInfo where
  current : String
  next : Option String
  prev : Option String
deriving DecidableEq, Repr

/-- The collection state handed to the page as `props.collection`. -/
structure CollectionResult (Item : Type) where
  params : Option Params
  start : Int
  «end» : Int
  total : ℕ
  page : PageInfo
  url : UrlInfo
  data : List Item
deriving DecidableEq, Repr

/-- Side-channel collection data attached to responses for the build-time
crawler: additional URLs (a JS `Set`, i.e. deduplicated in insertion order)
and the RSS payload (metadata plus the unsliced data snapshot). -/
structure CollectionInfo (Item : Type) where
  additionalURLs : List String
  rss : Option (RssMeta × List Item)
deriving DecidableEq, Repr

/-- The result of `load` (`LoadResult` of the source), tagged by status. -/
inductive LoadResult (Item : Type) where
  | success (contentType : Option String) (contents : String)
      (collectionInfo : Option (CollectionInfo Item))
  | redirect (location : String) (collectionInfo : Option (CollectionInfo Item))
  | notFound (hasError : Bool) (collectionInfo : Option (CollectionInfo Item))
  | failure (errorType : String) (error : JsError) (errStart : Option ℕ)
deriving DecidableEq, Repr

/-- HTTP status code of a `LoadResult`. -/
def LoadResult.statusCode : LoadResult Item → ℕ
  | .success .. => 200
  | .redirect .. => 301
  | .notFound .. => 404
  | .failure .. => 500

/-- The `css` export of a page module. -/
inductive CssVal where
  | noCss
  | str (s : String)
  | arr (l : List String)

/-- Arguments passed to the module's `__renderPage` entry point; query
parameters are stripped from the render-time URL except for `/500`. -/
structure RenderArgs (Item : Type) where
  urlPathname : String
  searchRetained : Bool
  canonical : String
  props : Option (CollectionResult Item)
  css : List String

/-- A loaded page module: optional `createCollection` (itself a call that
can throw), the render entry point, and the optional `css` export. -/
structure PageModule (Item : Type) where
  createCollection : Option (Except JsError (CreateCollection Item))
  renderPage : RenderArgs Item → Except JsError String
  css : CssVal

/-- Result of the static file server for a path. -/
structure StaticResult where
  statusCode : ℕ
  contents : String
  contentType : Option String

/-- Error thrown by the Vite transform pipeline; `failed` marks build-time
failures (500) as opposed to genuinely missing assets (404). -/
structure TransformError where
  failed : Bool
  error : JsError

/-- The environment of one dispatch: the pages-root file system and every
external collaborator `load` delegates to, at its interface boundary. -/
structure Env (Item : Type) where
  fs : List String
  collectionFiles : List String
  loadStaticFile : String → Except Unit StaticResult
  astroFrontend : String
  loadInternalFile : String → LoadResult Item
  transformRequest : String → Except TransformError (Option String)
  mimeType : String → Option String
  loadModule : String → Except JsError (PageModule Item)
  getSrcPath : String → String
  readFile : String → Option String
  canonicalURL : String → String

/-! ### The collection data engine (`load`, lines 84–190) -/

/-- The recognized collection options, in `VALID_KEYS` insertion order. -/
def validKeys : List String := ["data", "routes", "permalink", "pageSize", "rss"]

/-- First declared key outside the recognized option set. -/
def firstUnknownKey (keys : List String) : Option String :=
  keys.find? (fun k => !(validKeys.contains k))

/-- The configuration error raised for an unknown collection option. -/
def unknownOptionMsg (k : String) : String :=
  "[createCollection] unknown option: \"" ++ k ++
    "\". Expected one of data, routes, permalink, pageSize, rss."

/-- `if (!pageSize) pageSize = 25`: absent or `0` falls back to 25. -/
def defaultPageSize : Option PageSize → PageSize
  | none => .fin 25
  | some (.fin n) => if n = 0 then .fin 25 else .fin n
  | some .inf => .inf

/-- JS truthiness of the declared `pageSize` (`undefined` and `0` falsy,
`Infinity` truthy). -/
def jsTruthyPageSizeOpt : Option PageSize → Bool
  | none => false
  | some (.fin n) => n ≠ 0
  | some .inf => true

/-- `currentPage is 1-indexed`: slice start, 0 for unbounded page size. -/
def sliceStart (c : Int) (ps : PageSize) : Int :=
  match ps with
  | .inf => 0
  | .fin n => (c - 1) * n

/-- `Math.min(start + pageSize, data.length)`. -/
def sliceEnd (start : Int) (ps : PageSize) (L : ℕ) : Int :=
  match ps with
  | .inf => L
  | .fin n => min (start + n) L

/-- `Math.ceil(data.length / pageSize)` (division by `Infinity` gives 0). -/
def jsCeilDiv (L : ℕ) (ps : PageSize) : Int :=
  match ps with
  | .inf => 0
  | .fin n =>
    if 0 < n then (((L + n.toNat - 1) / n.toNat : ℕ) : Int)
    else -(((L / n.natAbs : ℕ) : Int))

/-- JS `Array.prototype.slice(start, end)` with its negative-index and
clamping rules. -/
def jsSlice (l : List α) (s e : Int) : List α :=
  let L : Int := l.length
  let s1 := if s < 0 then max (L + s) 0 else min s L
  let e1 := if e < 0 then max (L + e) 0 else min e L
  (l.take e1.toNat).drop s1.toNat

/-- JS `Set.prototype.add`: append when not already present. -/
def setAdd (acc : List String) (x : String) : List String :=
  if x ∈ acc then acc else acc ++ [x]

/-- `routes.find(...)` with its permalink side effect: every visited route's
permalink URL is added to the additional-URL set, stopping at the first
route whose permalink (bare, or with the current page number appended)
equals the request path. -/
def findRoute (routes : List Params) (permalink : Params → String)
    (reqPath : String) (cp : Option Int) (acc : List String) :
    List String × Option Params :=
  match routes with
  | [] => (acc, none)
  | p :: rest =>
    let baseURL := permalink p
    let acc2 := setAdd acc baseURL
    if baseURL = reqPath || baseURL ++ "/" ++ intDecimal (jsOr1 cp) = reqPath then
      (acc2, some p)
    else findRoute rest permalink reqPath cp acc2

/-- The co-requirement check and route matching (`if (routes || permalink)`). -/
def routesStep (cc : CreateCollection Item) (reqPath : String) (cp : Option Int) :
    Except JsError (List String × Option Params) :=
  if cc.routes.isSome || cc.permalink.isSome then
    match cc.routes with
    | none => .error ⟨.plain, none, "[createCollection] `permalink` requires `routes` as well."⟩
    | some routes =>
      match cc.permalink with
      | none => .error ⟨.plain, none, "[createCollection] `routes` requires `permalink` as well."⟩
      | some permalink => .ok (findRoute routes permalink reqPath cp [])
  else .ok ([], none)

/-- One pass of `additionalURLs.forEach(url => additionalURLs.add(url.replace(…)))`.
A JS `Set.forEach` also visits values inserted during the traversal; since
the page-number rewrite is idempotent on its own image, those visits insert
nothing new, and a fold over the original elements is the exact result. -/
def jsSetForEachAdd (s : List String) (f : String → String) : List String :=
  s.foldl (fun acc u => setAdd acc (f u)) s

/-- Loop body for page number `n`: paginate every collected param URL, or
the bare request path when the set is empty. -/
def expandPagesOnce (acc : List String) (reqPath : String) (n : ℕ) : List String :=
  if acc.length ≠ 0 then
    jsSetForEachAdd acc (fun u => replaceTrailingPageOpt u ("/" ++ natDecimal n))
  else setAdd acc (replaceTrailingPageOpt reqPath ("/" ++ natDecimal n))

/-- `for (let n = 1; n <= collection.page.last; n++) …`. -/
def expandAllPages (acc : List String) (reqPath : String) (last : Int) : List String :=
  (List.range last.toNat).foldl (fun a k => expandPagesOnce a reqPath (k + 1)) acc

/-- `data()` results: a single record is wrapped into an array. -/
def dataAsList : List Item ⊕ Item → List Item
  | .inl xs => xs
  | .inr x => [x]

/-- Outcome of the collection block: an early return (pagination redirect or
empty-page 404), or the computed collection (absent for plain pages) plus
the side-channel info for the final 200. -/
inductive CollectionOutcome (Item : Type) where
  | early (r : LoadResult Item)
  | proceed (collection : Option (CollectionResult Item)) (info : CollectionInfo Item)

/-- The tail of the collection block after data loading: RSS snapshot,
collection-state initialization, pagination slicing with next/prev URL
rewriting and additional-URL expansion, the pagination redirect for
unpaginated requests, and the empty-slice 404. -/
def engineTail (reqPath : String) (cp : Option Int) (declaredPageSize : Option PageSize)
    (additionalURLs : List String) (reqParams : Option Params)
    (rssMeta : Option RssMeta) (data1 : List Item) : CollectionOutcome Item :=
  let pageSize := defaultPageSize declaredPageSize
  let rss : Option (RssMeta × List Item) := rssMeta.map (fun m => (m, data1))
  let L := data1.length
  let coll0 : CollectionResult Item :=
    { params := reqParams, start := 0, «end» := (L : Int) - 1, total := L,
      page := { current := 1, size := pageSize, last := 1 },
      url := { current := reqPath, next := none, prev := none }, data := [] }
  match jsToTruthyInt cp with
  | some c =>
    let start := sliceStart c pageSize
    let e := sliceEnd start pageSize L
    let last := jsCeilDiv L pageSize
    let next := if e < (L : Int) then
        some (replaceTrailingPageOpt reqPath ("/" ++ intDecimal (c + 1)))
      else none
    let prev := if 1 < c then
        some (replaceSlash1 (replaceTrailingDigits reqPath (intDecimal (jsOrIntDefault (c - 1) 1))))
      else none
    let aURLs := expandAllPages additionalURLs reqPath last
    let data2 := jsSlice data1 start e
    if data2.length = 0 then .early (.notFound true (some ⟨aURLs, rss⟩))
    else .proceed (some { coll0 with
        start := start, «end» := e - 1,
        page := { current := c, size := pageSize, last := last },
        url := { current := reqPath, next := next, prev := prev },
        data := data2 }) ⟨aURLs, rss⟩
  | none =>
    if jsTruthyPageSizeOpt declaredPageSize then
      .early (.redirect (reqPath ++ "/1") (some ⟨additionalURLs, rss⟩))
    else if data1.length = 0 then .early (.notFound true (some ⟨additionalURLs, rss⟩))
    else .proceed (some { coll0 with data := data1 }) ⟨additionalURLs, rss⟩

/-- The collection block of `load`: option validation, the mandatory data
loader, route/permalink resolution and the pagination tail.  `cp` is the
`currentPage` of the search result. -/
def runCollectionEngine (mod : PageModule Item) (reqPath : String) (cp : Option Int) :
    Except JsError (CollectionOutcome Item) :=
  match mod.createCollection with
  | none => .ok (.proceed none ⟨[], none⟩)
  | some (.error e) => .error e
  | some (.ok cc) =>
    match firstUnknownKey cc.keys with
    | some k => .error ⟨.plain, none, unknownOptionMsg k⟩
    | none =>
      match cc.data with
      | none => .error ⟨.plain, none,
          "[createCollection] must return `data()` function to create a collection."⟩
      | some loadData =>
        match routesStep cc reqPath cp with
        | .error e => .error e
        | .ok (aURLs, reqParams) =>
          match loadData (reqParams.getD []) with
          | .error e => .error e
          | .ok none => .error ⟨.plain, none,
              "[createCollection] `data()` returned nothing (empty data)\""⟩
          | .ok (some d0) =>
            .ok (engineTail reqPath cp cc.pageSize aURLs reqParams cc.rss (dataAsList d0))

/-! ### Error classification (the catch block of `load`) -/

/-- The rewritten SSR guidance message (the raw engine text is replaced). -/
def ssrMessage (reqPath : String) : String :=
  "[" ++ reqPath ++ "]\n    The window object is not available during server-side rendering (SSR).\n    Try using `import.meta.env.SSR` to write SSR-friendly code.\n    https://docs.astro.build/reference/api-reference/#importmeta"

/-- `missingFile.replace(/^\/_astro/, '')`. -/
def stripAstroPrefix (s : String) : String :=
  if strStartsWith s "/_astro" then strDrop s 7 else s

/-- `missingFile.replace(/\.proxy\.js$/, '')`. -/
def stripProxySuffix (s : String) : String :=
  if strEndsWith s ".proxy.js" then strTake s (strLen s - 9) else s

/-- The best-effort offset search: try the slash-joined segment list, then
drop leading segments until a substring of the source text matches. -/
def notFoundOffset (code : String) : List String → ℕ
  | [] => 0
  | seg :: rest =>
    match strIndexOfSub code (String.intercalate "/" (seg :: rest)) with
    | some idx => idx
    | none => notFoundOffset code rest

/-- The error classification of the catch block: parse errors, the SSR
`window` reference error with its rewritten message, the heuristic
"module not found" diagnostic, and the verbatim fallback. -/
def classifyError (env : Env Item) (err : JsError) (reqPath : String)
    (rawPathname : Option String) : LoadResult Item :=
  if err.code = some "parse-error" || err.cls = .syntaxError then
    .failure "parse-error" err none
  else if err.cls = .referenceError && jsIncludes (errToString err) "window is not defined" then
    .failure "ssr" ⟨.plain, none, ssrMessage reqPath⟩ none
  else if err.cls = .notFoundError && jsTruthyStrOpt rawPathname then
    let raw := rawPathname.getD ""
    let missingFile : Option String :=
      match parenGroup (errToString err) with
      | some m =>
        let s := stripProxySuffix (stripAstroPrefix m)
        if s = "" then none else some s
      | none => none
    let distPath := if extname raw ≠ "" then raw else replaceTrailingSlashIndexHtml raw
    let srcFile := env.getSrcPath distPath
    let code := (env.readFile srcFile).getD ""
    let segs : List String :=
      match missingFile with
      | some mf => ((splitOnChar '/' mf.data).filter (fun seg => seg ≠ [])).map (⟨·⟩)
      | none => []
    let msg := "Could not find" ++
      (match missingFile with | some mf => " \"" ++ mf ++ "\"" | none => " file")
    .failure "not-found" ⟨.plain, none, msg⟩ (some (notFoundOffset code segs))
  else .failure "unknown" err none

/-! ### The request dispatcher (`load`) -/

/-- Normalization of the module `css` export before rendering. -/
def cssList : CssVal → List String
  | .noCss => []
  | .str s => [s]
  | .arr l => l

/-- `if (reqPath.endsWith('/')) reqPath += 'index.html'`. -/
def jsRewritePath (p : String) : String :=
  if strEndsWith p "/" then p ++ "index.html" else p

/-- The resolved-page stage of `load`: module loading, the collection
engine, rendering, and classification of anything thrown on the way. -/
def loadFound (env : Env Item) (reqPath pathname : String) (rawPathname : Option String)
    (location : String) (currentPage : Option Int) : LoadResult Item :=
  match env.loadModule location with
  | .error err => classifyError env err reqPath rawPathname
  | .ok mod =>
    match runCollectionEngine mod reqPath currentPage with
    | .error err => classifyError env err reqPath rawPathname
    | .ok (.early r) => r
    | .ok (.proceed coll info) =>
      let args : RenderArgs Item :=
        { urlPathname := pathname,
          searchRetained := reqPath = "/500",
          canonical := env.canonicalURL pathname,
          props := coll,
          css := cssList mod.css }
      match mod.renderPage args with
      | .error err => classifyError env err reqPath rawPathname
      | .ok html => .success (some "text/html; charset=utf-8") html (some info)

/-- `load`: static lookup, internal assets, page search, the transform
fallback for unresolved assets, the pagination redirect, and rendering.
The input is the decoded request path (`new URL(raw || '/', origin)`,
percent-decoding left to the caller as the claims never exercise it). -/
def load (env : Env Item) (rawPathname : Option String) : LoadResult Item :=
  let pathname := match rawPathname with
    | none => "/"
    | some p => if p = "" then "/" else p
  let reqPath := jsRewritePath pathname
  let afterStatic :=
    if strStartsWith reqPath env.astroFrontend then env.loadInternalFile reqPath
    else
      match searchForPage pathname env.fs env.collectionFiles with
      | .notFound =>
        (match env.transformRequest reqPath with
          | .ok (some code) =>
            .success (some ((env.mimeType reqPath).getD "text/plain")) code none
          | .ok none => .notFound true none
          | .error e =>
            if e.failed then .failure "unknown" e.error none else .notFound true none)
      | .redirect p => .redirect p none
      | .found location _pn currentPage =>
        loadFound env reqPath pathname rawPathname location currentPage
  match env.loadStaticFile reqPath with
  | .ok r =>
    if r.statusCode = 200 then .success r.contentType r.contents none else afterStatic
  | .error _ => afterStatic

/-! ### Statement helpers and concrete instances -/

/-- The canonical URL of page `p` of the collection route named `nm`: the
bare route for page 1 (the spec's canonicalization omits the `/1` segment)
and the route with a trailing page segment otherwise. -/
def pageURL (nm : String) (p : ℕ) : String :=
  if p = 1 then "/" ++ nm else "/" ++ nm ++ "/" ++ natDecimal p

/-- The collection state the engine proceeds to render with, if any. -/
def proceedCollectionOf : Except JsError (CollectionOutcome Item) →
    Option (CollectionResult Item)
  | .ok (.proceed c _) => c
  | _ => none

/-- A 25-record dataset. -/
def items25 : List ℕ := List.range 25

/-- A data loader producing the 25-record dataset. -/
def loader25 : Params → Except JsError (Option (List ℕ ⊕ ℕ)) :=
  fun _ => .ok (some (.inl items25))

/-- A collection declaration `{ data, pageSize: 10 }`. -/
def ccTag : CreateCollection ℕ :=
  { keys := ["data", "pageSize"], data := some loader25, routes := none,
    permalink := none, pageSize := some (.fin 10), rss := none }

/-- A `$tag.astro` page module whose render output displays the next/prev
URLs of the collection it receives (making them observable in `load`). -/
def modTag : PageModule ℕ :=
  { createCollection := some (.ok ccTag),
    renderPage := fun a => .ok (match a.props with
      | some c => (c.url.next.getD "-") ++ "|" ++ (c.url.prev.getD "-")
      | none => "nocoll"),
    css := .noCss }

/-- Dispatch environment with the single collection file `$tag.astro`:
no static files, no transformable assets. -/
def envTag : Env ℕ :=
  { fs := [], collectionFiles := ["$tag.astro"],
    loadStaticFile := fun _ => .error (),
    astroFrontend := "/_astro_frontend/",
    loadInternalFile := fun _ => .notFound false none,
    transformRequest := fun _ => .ok none,
    mimeType := fun _ => none,
    loadModule := fun _ => .ok modTag,
    getSrcPath := fun s => s,
    readFile := fun _ => none,
    canonicalURL := fun s => s }

/-- A two-record collection declaration with `pageSize: 1` for the
digit-named route `$2020.astro`. -/
def cc2020 : CreateCollection ℕ :=
  { keys := ["data", "pageSize"], data := some (fun _ => .ok (some (.inl [0, 1]))),
    routes := none, permalink := none, pageSize := some (.fin 1), rss := none }

/-- The `$2020.astro` page module. -/
def mod2020 : PageModule ℕ := { modTag with createCollection := some (.ok cc2020) }

/-- A collection declaration carrying the unrecognized option `foo`. -/
def ccUnknown : CreateCollection ℕ := { ccTag with keys := ["data", "foo"] }

/-- Module declaring the collection with the unknown option. -/
def modUnknown : PageModule ℕ := { modTag with createCollection := some (.ok ccUnknown) }

/-- The same declaration with a different data loader (the loader must be
irrelevant once validation fails). -/
def modUnknownAltLoader : PageModule ℕ :=
  { modTag with createCollection := some (.ok
      { ccUnknown with data := some (fun _ => .ok (some (.inl [7]))) }) }

/-- The SSR reference error an engine raises for browser-global use. -/
def errWindow : JsError := ⟨.referenceError, none, "window is not defined"⟩

/-- A reference error with the `window` text but a `parse-error` code. -/
def errWindowParse : JsError := ⟨.referenceError, some "parse-error", "window is not defined"⟩

/-- A page module whose render throws the SSR reference error. -/
def modSsr : PageModule ℕ := { modTag with renderPage := fun _ => .error errWindow }

/-- A page module whose render throws the coded reference error. -/
def modSsrParse : PageModule ℕ :=
  { modTag with renderPage := fun _ => .error errWindowParse }

/-- `envTag` with a page whose render throws the SSR reference error. -/
def envSsr : Env ℕ := { envTag with loadModule := fun _ => Except.ok modSsr }

/-- `envTag` with a page whose render throws the coded reference error. -/
def envSsrParse : Env ℕ := { envTag with loadModule := fun _ => Except.ok modSsrParse }

/-- Environment with one static file at the rewritten path `/d/index.html`. -/
def envStatic : Env ℕ :=
  { envTag with loadStaticFile := fun s =>
      if s = "/d/index.html" then .ok ⟨200, "body", some "text/css"⟩ else .error () }

/-! ### Helper lemmas: digits and decimal printing -/

theorem digitVal_digitChar {m : ℕ} (h : m < 10) : digitVal (digitChar m) = m := by
  interval_cases m <;> rfl

theorem jsDigit_digitChar {m : ℕ} (h : m < 10) : jsDigit (digitChar m) = true := by
  interval_cases m <;> rfl

theorem digitsVal_append_singleton (xs : List Char) (c : Char) :
    digitsVal (xs ++ [c]) = 10 * digitsVal xs + digitVal c := by
  simp [digitsVal, List.foldl_append]

theorem natDecimalAux_spec :
    ∀ fuel n, n < fuel →
      natDecimalAux fuel n ≠ [] ∧ (∀ c ∈ natDecimalAux fuel n, jsDigit c = true) ∧
        digitsVal (natDecimalAux fuel n) = n := by
  intro fuel
  induction fuel with
  | zero => intro n h; omega
  | succ fuel ih =>
    intro n h
    by_cases hlt : n < 10
    · refine ⟨by simp [natDecimalAux, hlt], ?_, ?_⟩
      · intro c hc
        simp [natDecimalAux, hlt] at hc
        subst hc
        exact jsDigit_digitChar hlt
      · simp [natDecimalAux, hlt, digitsVal, digitVal_digitChar hlt]
    · have hdiv : n / 10 < fuel := by
        have h1 : n / 10 < n := Nat.div_lt_self (by omega) (by omega)
        omega
      obtain ⟨hne, hdig, hval⟩ := ih (n / 10) hdiv
      refine ⟨by simp [natDecimalAux, hlt], ?_, ?_⟩
      · intro c hc
        simp only [natDecimalAux, if_neg hlt, List.mem_append, List.mem_singleton] at hc
        rcases hc with hc | hc
        · exact hdig c hc
        · subst hc; exact jsDigit_digitChar (Nat.mod_lt _ (by omega))
      · simp only [natDecimalAux, if_neg hlt]
        rw [digitsVal_append_singleton, hval, digitVal_digitChar (Nat.mod_lt _ (by omega))]
        omega

theorem natDecimal_data_ne_nil (n : ℕ) : (natDecimal n).data ≠ [] :=
  (natDecimalAux_spec (n + 1) n (by omega)).1

theorem natDecimal_data_digits (n : ℕ) : ∀ c ∈ (natDecimal n).data, jsDigit c = true :=
  (natDecimalAux_spec (n + 1) n (by omega)).2.1

theorem digitsVal_natDecimal (n : ℕ) : digitsVal (natDecimal n).data = n :=
  (natDecimalAux_spec (n + 1) n (by omega)).2.2

theorem natDecimal_injective {m n : ℕ} (h : natDecimal m = natDecimal n) : m = n := by
  have := digitsVal_natDecimal m
  rw [h, digitsVal_natDecimal] at this
  omega

/-! ### Helper lemmas: character classes -/

theorem jsDigit_char_range {c : Char} (h : jsDigit c = true) :
    48 ≤ c.toNat ∧ c.toNat ≤ 57 := by
  simpa [jsDigit, Char.isDigit, Char.le_def, Char.toNat] using h

theorem jsDigit_ne {c d : Char} (h : jsDigit c = true) (hd : jsDigit d = false) : c ≠ d := by
  intro he; subst he; simp [h] at hd

theorem jsDigit_ne_of_toNat {c : Char} {d : Char} (h : jsDigit c = true)
    (hd : d.toNat < 48 ∨ 57 < d.toNat) : c ≠ d := by
  have := jsDigit_char_range h
  intro he; subst he; omega

theorem jsDigit_not_whitespace {c : Char} (h : jsDigit c = true) : jsWhitespace c = false := by
  have h1 : c ≠ ' ' := jsDigit_ne_of_toNat h (by left; decide)
  have h2 : c ≠ '\t' := jsDigit_ne_of_toNat h (by left; decide)
  have h3 : c ≠ '\n' := jsDigit_ne_of_toNat h (by left; decide)
  have h4 : c ≠ '\r' := jsDigit_ne_of_toNat h (by left; decide)
  simp [jsWhitespace, h1, h2, h3, h4]

theorem jsDigit_ne_slash {c : Char} (h : jsDigit c = true) : c ≠ '/' :=
  jsDigit_ne_of_toNat h (by left; decide)

theorem jsDigit_ne_dot {c : Char} (h : jsDigit c = true) : c ≠ '.' :=
  jsDigit_ne_of_toNat h (by left; decide)

theorem jsDigit_ne_newline {c : Char} (h : jsDigit c = true) : c ≠ '\n' :=
  jsDigit_ne_of_toNat h (by left; decide)

theorem jsDigit_ne_cr {c : Char} (h : jsDigit c = true) : c ≠ '\r' :=
  jsDigit_ne_of_toNat h (by left; decide)

theorem jsDigit_ne_minus {c : Char} (h : jsDigit c = true) : c ≠ '-' :=
  jsDigit_ne_of_toNat h (by left; decide)

theorem jsDigit_ne_plus {c : Char} (h : jsDigit c = true) : c ≠ '+' :=
  jsDigit_ne_of_toNat h (by left; decide)

/-! ### Helper lemmas: lists and strings -/

theorem takeWhile_append_stop {p : Char → Bool} {xs ys : List Char} {y : Char}
    (hxs : ∀ x ∈ xs, p x = true) (hy : p y = false) :
    (xs ++ y :: ys).takeWhile p = xs := by
  induction xs with
  | nil => simp [List.takeWhile_cons, hy]
  | cons a t ih =>
    have ha : p a = true := hxs a (by simp)
    simp only [List.cons_append, List.takeWhile_cons, ha, if_pos]
    rw [ih (fun x hx => hxs x (by simp [hx]))]

theorem takeWhile_all {p : Char → Bool} {xs : List Char}
    (hxs : ∀ x ∈ xs, p x = true) : xs.takeWhile p = xs :=
  List.takeWhile_eq_self_iff.mpr hxs

theorem splitOnChar_no_sep {sep : Char} {cs : List Char}
    (h : ∀ c ∈ cs, c ≠ sep) : splitOnChar sep cs = [cs] := by
  induction cs with
  | nil => rfl
  | cons c t ih =>
    have hc : c ≠ sep := h c (by simp)
    rw [splitOnChar, ih (fun x hx => h x (by simp [hx]))]
    simp [hc]

theorem jsParseInt_digits {ds : List Char} (hne : ds ≠ [])
    (hdig : ∀ c ∈ ds, jsDigit c = true) :
    jsParseInt ⟨ds⟩ = some ((digitsVal ds : ℕ) : Int) := by
  obtain ⟨d, t, rfl⟩ : ∃ d t, ds = d :: t := by
    cases ds with
    | nil => simp at hne
    | cons d t => exact ⟨d, t, rfl⟩
  have hd0 : jsDigit d = true := hdig d (by simp)
  have hws : jsWhitespace d = false := jsDigit_not_whitespace hd0
  have hm : ¬((d :: t).head? = some '-') := by simp [jsDigit_ne_minus hd0]
  have hp : ¬((d :: t).head? = some '+') := by simp [jsDigit_ne_plus hd0]
  have htw : (d :: t).takeWhile jsDigit = d :: t := takeWhile_all hdig
  simp only [jsParseInt, List.dropWhile_cons, hws, Bool.false_eq_true, if_false,
    decide_eq_false hm, decide_eq_false hp, Bool.or_self, htw]
  rw [if_neg (List.cons_ne_nil d t), if_neg hm]

theorem jsParseInt_natDecimal (n : ℕ) : jsParseInt (natDecimal n) = some (n : Int) := by
  have h := jsParseInt_digits (natDecimal_data_ne_nil n) (natDecimal_data_digits n)
  rwa [digitsVal_natDecimal] at h

/-! ### Helper lemmas: string shapes -/

theorem strEndsWith_single_iff {s : String} {c : Char} :
    strEndsWith s ⟨[c]⟩ = true ↔ s.data.reverse.head? = some c := by
  cases h : s.data.reverse with
  | nil => simp [strEndsWith, h, List.isPrefixOf]
  | cons d t =>
    simp only [strEndsWith, h, show (⟨[c]⟩ : String).data.reverse = [c] from rfl,
      List.isPrefixOf, List.head?_cons, Option.some.injEq, Bool.and_eq_true, beq_iff_eq]
    constructor
    · rintro ⟨rfl, -⟩; rfl
    · rintro rfl; exact ⟨rfl, trivial⟩

theorem strEndsWith_slash_true {s : String} {l : List Char}
    (h : s.data = l ++ ['/']) : strEndsWith s "/" = true := by
  apply strEndsWith_single_iff.mpr
  rw [h, List.reverse_append]
  rfl

theorem strEndsWith_slash_false {s : String} {l : List Char} {c : Char}
    (h : s.data = l ++ [c]) (hc : c ≠ '/') : strEndsWith s "/" = false := by
  have hh : s.data.reverse.head? = some c := by rw [h, List.reverse_append]; rfl
  rw [← Bool.not_eq_true, strEndsWith_single_iff, hh]
  simp [hc]

theorem data_slash_name {nm : String} : ("/" ++ nm).data = '/' :: nm.data := by
  rw [String.data_append]; rfl

theorem data_mid_slash (a b : String) : (a ++ "/" ++ b).data = a.data ++ '/' :: b.data := by
  simp only [String.data_append, List.append_assoc]
  rfl

theorem data_slash_name_slash_rest {nm rest : String} :
    ("/" ++ nm ++ "/" ++ rest).data = '/' :: nm.data ++ '/' :: rest.data := by
  simp only [String.data_append, List.append_assoc]
  rfl

theorem rev_mid_slash (a b : String) :
    (a ++ "/" ++ b).data.reverse = b.data.reverse ++ '/' :: a.data.reverse := by
  rw [data_mid_slash]
  simp

theorem last_concat_of_ne_nil {l : List Char} (h : l ≠ []) :
    ∃ t c, l = t ++ [c] ∧ c ∈ l := by
  refine ⟨l.dropLast, l.getLast h, (List.dropLast_append_getLast h).symm, List.getLast_mem h⟩

theorem containsAux_iff_infix {sub cs : List Char} :
    containsAux sub cs = true ↔ sub <:+: cs := by
  induction cs with
  | nil => simp [containsAux, List.isEmpty_iff, List.infix_nil]
  | cons c t ih =>
    simp [containsAux, List.isPrefixOf_iff_prefix, ih, List.infix_cons_iff]

theorem jsIncludes_iff_infix {s sub : String} :
    jsIncludes s sub = true ↔ sub.data <:+: s.data := containsAux_iff_infix

/-! ### Helper lemmas: the trailing-page-segment rewrites -/

theorem rtpo_no_digit_tail {s : String} {l : List Char} {c : Char}
    (h : s.data = l ++ [c]) (hc : jsDigit c = false) (rep : String) :
    replaceTrailingPageOpt s rep = s ++ rep := by
  simp only [replaceTrailingPageOpt, h, List.reverse_append, List.reverse_singleton,
    List.singleton_append, List.takeWhile_cons, hc, Bool.false_eq_true, if_false]
  simp

theorem rtpo_digit_tail (base : String) (p : ℕ) (rep : String) :
    replaceTrailingPageOpt (base ++ "/" ++ natDecimal p) rep = base ++ rep := by
  have hdig : ∀ x ∈ (natDecimal p).data.reverse, jsDigit x = true := by
    intro x hx; exact natDecimal_data_digits p x (List.mem_reverse.mp hx)
  have hrev := rev_mid_slash base (natDecimal p)
  have htw : ((natDecimal p).data.reverse ++ '/' :: base.data.reverse).takeWhile jsDigit =
      (natDecimal p).data.reverse := takeWhile_append_stop hdig (by decide)
  have hne : (natDecimal p).data.reverse ≠ [] := by
    simp [natDecimal_data_ne_nil p]
  have hdrop : ((natDecimal p).data.reverse ++ '/' :: base.data.reverse).drop
      (natDecimal p).data.reverse.length = '/' :: base.data.reverse :=
    List.drop_left _ _
  have hdrop1 : ((natDecimal p).data.reverse ++ '/' :: base.data.reverse).drop
      ((natDecimal p).data.reverse.length + 1) = base.data.reverse := by
    have he : (natDecimal p).data.reverse ++ '/' :: base.data.reverse =
        ((natDecimal p).data.reverse ++ ['/']) ++ base.data.reverse := by simp
    rw [he, ← (by simp : ((natDecimal p).data.reverse ++ ['/']).length =
      (natDecimal p).data.reverse.length + 1)]
    exact List.drop_left _ _
  simp only [replaceTrailingPageOpt, hrev, htw]
  rw [if_pos ⟨hne, by rw [hdrop]; rfl⟩, hdrop1]
  congr 1
  apply String.ext
  simp

theorem rtd_digit_tail (base : String) (p : ℕ) (rep : String) :
    replaceTrailingDigits (base ++ "/" ++ natDecimal p) rep = base ++ "/" ++ rep := by
  have hdig : ∀ x ∈ (natDecimal p).data.reverse, jsDigit x = true := by
    intro x hx; exact natDecimal_data_digits p x (List.mem_reverse.mp hx)
  have hrev := rev_mid_slash base (natDecimal p)
  have htw : ((natDecimal p).data.reverse ++ '/' :: base.data.reverse).takeWhile jsDigit =
      (natDecimal p).data.reverse := takeWhile_append_stop hdig (by decide)
  have hne : (natDecimal p).data.reverse ≠ [] := by
    simp [natDecimal_data_ne_nil p]
  simp only [replaceTrailingDigits, hrev, htw]
  rw [if_neg hne, List.drop_left]
  congr 1
  apply String.ext
  simp [String.data_append, show "/".data = ['/'] from rfl]

theorem rs1_slash_one (base : String) : replaceSlash1 (base ++ "/1") = base := by
  have hdata : (base ++ "/1").data = base.data ++ ['/', '1'] := by
    rw [String.data_append]
  have hends : strEndsWith (base ++ "/1") "/1" = true := by
    simp only [strEndsWith, hdata, List.reverse_append,
      show "/1".data.reverse = ['1', '/'] from rfl,
      show (['/', '1'] : List Char).reverse = ['1', '/'] from rfl]
    simp [List.isPrefixOf_iff_prefix]
  rw [replaceSlash1, if_pos hends]
  apply String.ext
  simp only [strTake, strLen, hdata]
  have h2 : (base.data ++ ['/', '1']).length - 2 = base.data.length := by simp
  rw [h2, List.take_left]

theorem rs1_no_one {base : String} {p : ℕ} (hp : 2 ≤ p) :
    replaceSlash1 (base ++ "/" ++ natDecimal p) = base ++ "/" ++ natDecimal p := by
  have hrev := rev_mid_slash base (natDecimal p)
  have hends : strEndsWith (base ++ "/" ++ natDecimal p) "/1" = false := by
    rw [← Bool.not_eq_true]
    simp only [strEndsWith, List.isPrefixOf_iff_prefix, hrev,
      show "/1".data.reverse = ['1', '/'] from rfl]
    intro hpre
    cases hdp : (natDecimal p).data.reverse with
    | nil => exact natDecimal_data_ne_nil p (by simpa using congrArg List.reverse hdp)
    | cons d t =>
      rw [hdp, List.cons_append] at hpre
      obtain ⟨hd1, hrest⟩ := List.cons_prefix_cons.mp hpre
      cases t with
      | nil =>
        have hone : (natDecimal p).data = ['1'] := by
          rw [← List.reverse_reverse (natDecimal p).data, hdp, ← hd1]
          rfl
        have hval := digitsVal_natDecimal p
        rw [hone, show digitsVal ['1'] = 1 from rfl] at hval
        omega
      | cons e t2 =>
        rw [List.cons_append] at hrest
        obtain ⟨he, -⟩ := List.cons_prefix_cons.mp hrest
        have hedig : jsDigit e = true :=
          natDecimal_data_digits p e (List.mem_reverse.mp (by rw [hdp]; simp))
        exact jsDigit_ne_slash hedig he.symm
  simp [replaceSlash1, hends]

/-! ### Helper lemmas: the collection matcher -/

theorem jsCollectionMatch_exact (nm : String) :
    jsCollectionMatch nm ("/" ++ nm) = some none := by
  simp [jsCollectionMatch]

theorem jsCollectionMatch_sub {nm rest : String}
    (hr : ∀ c ∈ rest.data, c ≠ '\n' ∧ c ≠ '\r') :
    jsCollectionMatch nm ("/" ++ nm ++ "/" ++ rest) = some (some rest) := by
  have hne : ("/" ++ nm ++ "/" ++ rest) ≠ "/" ++ nm := by
    intro he
    have hlen := congrArg (fun s => s.data.length) he
    simp only [data_slash_name_slash_rest, data_slash_name] at hlen
    simp at hlen
  have hpre : strStartsWith ("/" ++ nm ++ "/" ++ rest) ("/" ++ nm ++ "/") = true := by
    simp only [strStartsWith, List.isPrefixOf_iff_prefix]
    exact ⟨rest.data, (String.data_append _ _).symm⟩
  have hlen2 : ("/" ++ nm ++ "/").data.length = nm.data.length + 2 := by
    simp [String.data_append, data_slash_name, show "/".data = ['/'] from rfl]
  have hdrop : ("/" ++ nm ++ "/" ++ rest).data.drop (nm.data.length + 2) = rest.data := by
    rw [String.data_append, ← hlen2]
    exact List.drop_left _ _
  have htw : rest.data.takeWhile (fun c => c ≠ '\n' && c ≠ '\r') = rest.data :=
    takeWhile_all (fun c hc => by simp [(hr c hc).1, (hr c hc).2])
  rw [jsCollectionMatch, if_neg hne, if_pos hpre, hdrop, htw]

theorem dollarGroupEnd_spec (cs : List Char) (i j0 : ℕ)
    (hok : dollarGroupOk cs i j0 = true)
    (hmax : ∀ j, j0 < j → dollarGroupOk cs i j = false) :
    ∀ bound, j0 ≤ bound → dollarGroupEnd cs i bound = some j0 := by
  intro bound
  induction bound with
  | zero =>
    intro h
    have h0 : j0 = 0 := by omega
    subst h0
    simp [dollarGroupEnd, hok]
  | succ b ih =>
    intro h
    by_cases he : j0 = b + 1
    · subst he; simp [dollarGroupEnd, hok]
    · have hb : dollarGroupOk cs i (b + 1) = false := hmax _ (by omega)
      simp [dollarGroupEnd, hb, ih (by omega)]

theorem replaceDollarAstro_name {nm : String} (hne : nm.data ≠ [])
    (hns : ∀ c ∈ nm.data, c ≠ '/') :
    replaceDollarAstro ("$" ++ nm ++ ".astro") = nm := by
  have hdata : ("$" ++ nm ++ ".astro").data = '$' :: (nm.data ++ ".astro".data) := by
    simp only [String.data_append, List.append_assoc]
    rfl
  have hlen : ("$" ++ nm ++ ".astro").data.length = nm.data.length + 7 := by
    rw [hdata]
    simp [show ".astro".data.length = 6 from rfl]
  have hdrop1 : ("$" ++ nm ++ ".astro").data.drop 1 = nm.data ++ ".astro".data := by
    rw [hdata]; rfl
  have hdropJ : ("$" ++ nm ++ ".astro").data.drop (nm.data.length + 1) = ".astro".data := by
    rw [hdata, show ('$' :: (nm.data ++ ".astro".data)) =
      ('$' :: nm.data) ++ ".astro".data from by simp,
      ← (by simp : ('$' :: nm.data).length = nm.data.length + 1)]
    exact List.drop_left _ _
  have hgroup : (("$" ++ nm ++ ".astro").data.drop 1).take (nm.data.length + 1 - 1) =
      nm.data := by
    rw [hdrop1]
    simp [List.take_left]
  have hok : dollarGroupOk ("$" ++ nm ++ ".astro").data 0 (nm.data.length + 1) = true := by
    have h1 : 0 + 2 ≤ nm.data.length + 1 := by
      cases h : nm.data with
      | nil => exact absurd h hne
      | cons a t => simp [h]
    simp only [dollarGroupOk, hdropJ, hgroup, Bool.and_eq_true, decide_eq_true_eq]
    refine ⟨⟨h1, List.isPrefixOf_iff_prefix.mpr (List.prefix_refl _)⟩, ?_⟩
    simp only [List.all_eq_true, decide_eq_true_eq]
    exact hns
  have hmax : ∀ j, nm.data.length + 1 < j →
      dollarGroupOk ("$" ++ nm ++ ".astro").data 0 j = false := by
    intro j hj
    apply Bool.eq_false_iff.mpr
    intro hok2
    simp only [dollarGroupOk, Bool.and_eq_true] at hok2
    have hpre := List.isPrefixOf_iff_prefix.mp hok2.1.2
    have hlen6 := hpre.length_le
    rw [List.length_drop, hlen] at hlen6
    simp [show ".astro".data.length = 6 from rfl] at hlen6
    have hL : nm.length = nm.data.length := rfl
    omega
  have hend : dollarGroupEnd ("$" ++ nm ++ ".astro").data 0
      ("$" ++ nm ++ ".astro").data.length = some (nm.data.length + 1) :=
    dollarGroupEnd_spec _ _ _ hok hmax _ (by rw [hlen]; omega)
  have hstart : dollarStart ("$" ++ nm ++ ".astro").data
      (("$" ++ nm ++ ".astro").data.length + 1) 0 = some (0, nm.data.length + 1) := by
    rw [hlen, dollarStart, show ("$" ++ nm ++ ".astro").data[0]? = some '$' from by
      rw [hdata]; exact List.getElem?_cons_zero, if_pos rfl, ← hlen, hend]
  have hdropEnd : ("$" ++ nm ++ ".astro").data.drop (nm.data.length + 1 + 6) = [] := by
    apply List.drop_eq_nil_of_le
    omega
  rw [replaceDollarAstro, hstart]
  apply String.ext
  simp only [hgroup, hdropEnd, List.take_zero, List.nil_append, List.append_nil]

/-! ### Helper lemmas: page extraction and `loadCollection` -/

theorem collectionPageOf_natDecimal {p : ℕ} (hp : 1 ≤ p) :
    collectionPageOf (some (natDecimal p)) = some (p : Int) := by
  have hne : ¬(natDecimal p = "") := by
    intro he
    exact natDecimal_data_ne_nil p (congrArg String.data he)
  have hsplit : splitOnChar '/' (natDecimal p).data = [(natDecimal p).data] :=
    splitOnChar_no_sep (fun c hc => jsDigit_ne_slash (natDecimal_data_digits p c hc))
  have hpi : jsParseInt ⟨(natDecimal p).data⟩ = some (p : Int) := jsParseInt_natDecimal p
  have hp0 : ¬((p : Int) = 0) := by exact_mod_cast Nat.one_le_iff_ne_zero.mp hp
  simp only [collectionPageOf, if_neg hne, hsplit, List.filter_cons, List.filter_nil,
    decide_eq_true_eq]
  rw [if_pos (natDecimal_data_ne_nil p), List.getLast?_singleton]
  show (match jsParseInt ⟨(natDecimal p).data⟩ with
    | none => none
    | some n => if n = 0 then none else some n) = some (p : Int)
  rw [hpi]
  show (if (p : Int) = 0 then none else some (p : Int)) = some (p : Int)
  rw [if_neg hp0]

theorem loadCollection_exact {nm : String} (hne : nm.data ≠ [])
    (hns : ∀ c ∈ nm.data, c ≠ '/') :
    loadCollection ("/" ++ nm) ["$" ++ nm ++ ".astro"] =
      some ("$" ++ nm ++ ".astro", none) := by
  rw [loadCollection, List.findSome?_cons, replaceDollarAstro_name hne hns,
    jsCollectionMatch_exact]
  rfl

theorem loadCollection_page {nm : String} (hne : nm.data ≠ [])
    (hns : ∀ c ∈ nm.data, c ≠ '/') {p : ℕ} (hp : 1 ≤ p) :
    loadCollection ("/" ++ nm ++ "/" ++ natDecimal p) ["$" ++ nm ++ ".astro"] =
      some ("$" ++ nm ++ ".astro", some (p : Int)) := by
  have hr : ∀ c ∈ (natDecimal p).data, c ≠ '\n' ∧ c ≠ '\r' := fun c hc =>
    ⟨jsDigit_ne_newline (natDecimal_data_digits p c hc),
     jsDigit_ne_cr (natDecimal_data_digits p c hc)⟩
  rw [loadCollection, List.findSome?_cons, replaceDollarAstro_name hne hns,
    jsCollectionMatch_sub hr]
  show some ("$" ++ nm ++ ".astro", collectionPageOf (some (natDecimal p))) =
    some ("$" ++ nm ++ ".astro", some (p : Int))
  rw [collectionPageOf_natDecimal hp]

/-! ### Helper lemmas: `extname` and `searchForPage` -/

theorem extname_no_dot {s : String}
    (h : ∀ c ∈ s.data.reverse.takeWhile (fun c => c ≠ '/'), c ≠ '.') : extname s = "" := by
  simp only [extname, List.reverse_reverse]
  rw [takeWhile_all (fun c hc => by simp [h c hc]), if_pos rfl]

theorem extname_slash_name {nm : String} (hns : ∀ c ∈ nm.data, c ≠ '/')
    (hnd : ∀ c ∈ nm.data, c ≠ '.') : extname ("/" ++ nm) = "" := by
  apply extname_no_dot
  intro c hc
  have hrev : ("/" ++ nm).data.reverse = nm.data.reverse ++ '/' :: [] := by
    rw [data_slash_name]; simp
  rw [hrev, takeWhile_append_stop (fun x hx => by
    simp [hns x (List.mem_reverse.mp hx)]) (by simp)] at hc
  exact hnd c (List.mem_reverse.mp hc)

theorem extname_page_url (nm : String) (p : ℕ) :
    extname ("/" ++ nm ++ "/" ++ natDecimal p) = "" := by
  apply extname_no_dot
  intro c hc
  have hrev := rev_mid_slash ("/" ++ nm) (natDecimal p)
  rw [hrev, takeWhile_append_stop (fun x hx => by
    simp [jsDigit_ne_slash (natDecimal_data_digits p x (List.mem_reverse.mp hx))])
    (by simp)] at hc
  exact jsDigit_ne_dot (natDecimal_data_digits p c (List.mem_reverse.mp hc))

theorem findAnyPage_nil (cands : List String) : findAnyPage cands [] = none := by
  induction cands with
  | nil => rfl
  | cons c t ih =>
    rw [findAnyPage, List.find?_cons, show ([] : List String).contains c = false from rfl]
    exact ih

theorem searchForPage_collection {nm : String} (hne : nm.data ≠ [])
    (hns : ∀ c ∈ nm.data, c ≠ '/') (hnd : ∀ c ∈ nm.data, c ≠ '.') :
    searchForPage ("/" ++ nm) [] ["$" ++ nm ++ ".astro"] =
      .found ("$" ++ nm ++ ".astro") ("/" ++ nm) (some 1) := by
  rw [searchForPage]
  simp only [findAnyPage_nil, extname_slash_name hns hnd,
    loadCollection_exact hne hns]
  cases strEndsWith ("/" ++ nm) "/" <;> rfl

theorem searchForPage_collection_page {nm : String} (hne : nm.data ≠ [])
    (hns : ∀ c ∈ nm.data, c ≠ '/') {p : ℕ} (hp : 1 ≤ p) :
    searchForPage ("/" ++ nm ++ "/" ++ natDecimal p) [] ["$" ++ nm ++ ".astro"] =
      .found ("$" ++ nm ++ ".astro") ("/" ++ nm ++ "/" ++ natDecimal p) (some (p : Int)) := by
  rw [searchForPage]
  simp only [findAnyPage_nil, extname_page_url nm p, loadCollection_page hne hns hp]
  have hp0 : jsOr1 (some (p : Int)) = (p : Int) := by
    simp [jsOr1, (by exact_mod_cast Nat.one_le_iff_ne_zero.mp hp : (p : Int) ≠ 0)]
  cases strEndsWith ("/" ++ nm ++ "/" ++ natDecimal p) "/" <;> simp [hp0]

/-! ### Helper lemmas: the collection engine -/

theorem jsOr1_ne_zero (o : Option Int) : jsOr1 o ≠ 0 := by
  cases o with
  | none => simp [jsOr1]
  | some n => by_cases hn : n = 0 <;> simp [jsOr1, hn]

theorem routesStep_none {Item : Type} {cc : CreateCollection Item}
    (h1 : cc.routes = none) (h2 : cc.permalink = none) (reqPath : String) (cp : Option Int) :
    routesStep cc reqPath cp = .ok ([], none) := by
  simp [routesStep, h1, h2]

theorem routesStep_some {Item : Type} {cc : CreateCollection Item}
    {routes : List Params} {permalink : Params → String}
    (h1 : cc.routes = some routes) (h2 : cc.permalink = some permalink)
    (reqPath : String) (cp : Option Int) :
    routesStep cc reqPath cp = .ok (findRoute routes permalink reqPath cp []) := by
  simp [routesStep, h1, h2]

theorem engine_run {Item : Type} {mod : PageModule Item} {cc : CreateCollection Item}
    {ld : Params → Except JsError (Option (List Item ⊕ Item))}
    {aU : List String} {rp : Option Params} {d0 : List Item ⊕ Item}
    (reqPath : String) (cp : Option Int)
    (hmod : mod.createCollection = some (.ok cc))
    (hkeys : firstUnknownKey cc.keys = none)
    (hdata : cc.data = some ld)
    (hrs : routesStep cc reqPath cp = .ok (aU, rp))
    (hload : ld (rp.getD []) = .ok (some d0)) :
    runCollectionEngine mod reqPath cp =
      .ok (engineTail reqPath cp cc.pageSize aU rp cc.rss (dataAsList d0)) := by
  simp only [runCollectionEngine, hmod, hkeys, hdata, hrs, hload]

theorem engine_ok_cases {Item : Type} {mod : PageModule Item} {reqPath : String}
    {cp : Option Int} {o : CollectionOutcome Item}
    (h : runCollectionEngine mod reqPath cp = .ok o) :
    o = .proceed none ⟨[], none⟩ ∨
      ∃ dps aU rp rm data1, o = engineTail reqPath cp dps aU rp rm data1 := by
  unfold runCollectionEngine at h
  split at h
  · injection h with h; exact Or.inl h.symm
  · simp at h
  · split at h
    · simp at h
    · split at h
      · simp at h
      · split at h
        · simp at h
        · split at h
          · simp at h
          · simp at h
          · injection h with h
            exact Or.inr ⟨_, _, _, _, _, h.symm⟩

theorem engineTail_notFound_info {Item : Type} {reqPath : String} {cp : Option Int}
    {dps : Option PageSize} {aU : List String} {rp : Option Params}
    {rm : Option RssMeta} {data1 : List Item} {b : Bool}
    {ci : Option (CollectionInfo Item)}
    (h : engineTail reqPath cp dps aU rp rm data1 = .early (.notFound b ci)) :
    ci.isSome = true := by
  unfold engineTail at h
  rcases htr : jsToTruthyInt cp with - | c <;> rw [htr] at h <;> simp only [] at h
  · split at h
    · simp_all
    · split at h
      · simp only [CollectionOutcome.early.injEq, LoadResult.notFound.injEq] at h
        obtain ⟨-, h2⟩ := h
        simp [← h2]
      · simp_all
  · split at h
    · simp only [CollectionOutcome.early.injEq, LoadResult.notFound.injEq] at h
      obtain ⟨-, h2⟩ := h
      simp [← h2]
    · simp_all

theorem engineTail_proceed_props {Item : Type} {reqPath : String} {cp : Option Int}
    {dps : Option PageSize} {aU : List String} {rp : Option Params}
    {rm : Option RssMeta} {data1 : List Item} {coll : CollectionResult Item}
    {info : CollectionInfo Item}
    (h : engineTail reqPath cp dps aU rp rm data1 = .proceed (some coll) info) :
    coll.data ≠ [] ∧ coll.url.current = reqPath := by
  unfold engineTail at h
  rcases htr : jsToTruthyInt cp with - | c <;> rw [htr] at h <;> simp only [] at h
  · split at h
    · simp_all
    · split at h
      · simp_all
      · rename_i hlen
        simp only [CollectionOutcome.proceed.injEq, Option.some.injEq] at h
        obtain ⟨hcoll, -⟩ := h
        subst hcoll
        exact ⟨by simpa [List.length_eq_zero] using hlen, rfl⟩
  · split at h
    · simp_all
    · rename_i hlen
      simp only [CollectionOutcome.proceed.injEq, Option.some.injEq] at h
      obtain ⟨hcoll, -⟩ := h
      subst hcoll
      exact ⟨by simpa [List.length_eq_zero] using hlen, rfl⟩

theorem engine_proceed_props {Item : Type} {mod : PageModule Item} {reqPath : String}
    {cp : Option Int} {coll : CollectionResult Item} {info : CollectionInfo Item}
    (h : runCollectionEngine mod reqPath cp = .ok (.proceed (some coll) info)) :
    coll.data ≠ [] ∧ coll.url.current = reqPath := by
  rcases engine_ok_cases h with h1 | ⟨dps, aU, rp, rm, d1, h1⟩
  · simp at h1
  · exact engineTail_proceed_props h1.symm

theorem engine_notFound_info {Item : Type} {mod : PageModule Item} {reqPath : String}
    {cp : Option Int} {b : Bool} {ci : Option (CollectionInfo Item)}
    (h : runCollectionEngine mod reqPath cp = .ok (.early (.notFound b ci))) :
    ci.isSome = true := by
  rcases engine_ok_cases h with h1 | ⟨dps, aU, rp, rm, d1, h1⟩
  · simp at h1
  · exact engineTail_notFound_info h1.symm

theorem jsSlice_length {α : Type} {l : List α} {s e : Int}
    (hs : 0 ≤ s) (hsl : s ≤ (l.length : Int)) (he : 0 ≤ e) (hel : e ≤ (l.length : Int)) :
    (jsSlice l s e).length = e.toNat - s.toNat := by
  simp only [jsSlice]
  rw [if_neg (by omega), if_neg (by omega), min_eq_left hsl, min_eq_left hel,
    List.length_drop, List.length_take,
    min_eq_left (by omega : e.toNat ≤ l.length)]

theorem jsSlice_length_ne_zero {α : Type} {l : List α} {s e : Int}
    (hs : 0 ≤ s) (hse : s < e) (hel : e ≤ (l.length : Int)) :
    (jsSlice l s e).length ≠ 0 := by
  rw [jsSlice_length hs (by omega) (by omega) hel]
  omega

/-! ### Claim C1 -/

/-- C1: the spec requires a collection request with `pageSize` declared and
no explicit page-number segment to produce a 301 redirect to the path with
`/1` appended.  The code instead serves page 1 with a 200: `searchForPage`
defaults `currentPage` to 1 for every collection match, so the engine's
redirect branch is unreachable on collection routes (the source's own TODO
comment admits that the redirect "doesn't happen").  This theorem evaluates
the dispatcher at the failing input — collection file `$tag.astro`,
`pageSize = 10`, 25 records, request `/tag` — and shows a 200 success
carrying the page-1 render, not a 301. -/
theorem c1_code_behavior :
    searchForPage "/tag" [] ["$tag.astro"] = .found "$tag.astro" "/tag" (some 1) ∧
    (load envTag (some "/tag")).statusCode = 200 ∧
    load envTag (some "/tag") = .success (some "text/html; charset=utf-8") "/tag/2|-"
      (some ⟨["/tag/1", "/tag/2", "/tag/3"], none⟩) := ⟨rfl, rfl, rfl⟩

/-! ### Claim C2 -/

/-- C2 counterexample: the Collection Matcher substitutes the `$` marker by
the parameter NAME as a literal pattern, not by a capturing wildcard, so
the claim's example request `/javascript/2` does not match the collection
file `$tag.astro` at all. -/
theorem c2_counterexample :
    loadCollection "/javascript/2" ["$tag.astro"] = none ∧
    searchForPage "/javascript/2" [] ["$tag.astro"] = .notFound := ⟨rfl, rfl⟩

/-- C2 (amended): the matcher built from `$nm.astro` uses `nm` as a literal
path prefix: `/nm/<digits>` is matched with the digits extracted as the
page number, and the bare `/nm` is matched with no page number; parameter
values are supplied by routes/permalink, never inferred from the URL. -/
theorem c2_amended (nm : String) (hne : nm.data ≠ []) (hns : ∀ c ∈ nm.data, c ≠ '/')
    (p : ℕ) (hp : 1 ≤ p) :
    loadCollection ("/" ++ nm ++ "/" ++ natDecimal p) ["$" ++ nm ++ ".astro"] =
      some ("$" ++ nm ++ ".astro", some (p : Int)) ∧
    loadCollection ("/" ++ nm) ["$" ++ nm ++ ".astro"] =
      some ("$" ++ nm ++ ".astro", none) :=
  ⟨loadCollection_page hne hns hp, loadCollection_exact hne hns⟩

/-- C2 witness: `$tag.astro` matches `/tag/2` with page 2, and `/tag`. -/
theorem c2_amended_witness :
    loadCollection "/tag/2" ["$tag.astro"] = some ("$tag.astro", some 2) ∧
    loadCollection "/tag" ["$tag.astro"] = some ("$tag.astro", none) :=
  c2_amended "tag" (by decide) (by decide) 2 (by decide)

/-! ### Claim C3 -/

/-- C3 counterexample: the trailing segment `-1` is truthy under `parseInt`,
so the resolver returns a Found collection result whose `currentPage` is
the negative integer -1 — neither a positive integer nor the default 1. -/
theorem c3_counterexample :
    searchForPage "/tag/-1" [] ["$tag.astro"] =
      .found "$tag.astro" "/tag/-1" (some (-1)) ∧ ¬(0 < (-1 : Int)) := ⟨rfl, by decide⟩

/-- C3 (amended): every Found result of the resolver that carries a
currentPage carries a NONZERO integer (possibly negative): trailing
segments whose `parseInt` value is NaN or 0 fall back to the default 1,
and any other parsed value — including negative ones — is taken as-is. -/
theorem c3_amended (reqPath : String) (fs cfiles : List String) (loc pn : String)
    (cp : Int) (h : searchForPage reqPath fs cfiles = .found loc pn (some cp)) :
    cp ≠ 0 := by
  simp only [searchForPage] at h
  split at h
  · simp at h
  · split at h
    · simp at h
    · split at h
      · split at h
        · simp only [SearchResult.found.injEq, Option.some.injEq] at h
          obtain ⟨-, -, hcp⟩ := h
          rw [← hcp]
          exact jsOr1_ne_zero _
        · split at h <;> simp at h
      · split at h <;> simp at h

/-- C3 witness: the nonzero guarantee, applied at `/tag/2`. -/
theorem c3_amended_witness : (2 : Int) ≠ 0 :=
  c3_amended "/tag/2" [] ["$tag.astro"] "$tag.astro" "/tag/2" 2 rfl

/-! ### Claim C4 (counterexample) -/

/-- C4 counterexample: with pageSize 10, 25 records and currentPage 1 the
computed CollectionState has `end = 9` — the inclusive slice bound — not
`min(start + pageSize, total) = 10` as the claim states. -/
theorem c4_counterexample :
    (proceedCollectionOf (runCollectionEngine modTag "/tag" (some 1))).map
      (fun c => c.«end») = some 9 ∧ ((9 : Int) = min (0 + 10) 25 → False) :=
  ⟨rfl, by decide⟩

/-! ### Claim C6 (counterexample) -/

/-- C6 counterexample: for the digit-named collection `$2020.astro` with 2
records at pageSize 1, page 1 (`/2020`) is not the last page, and its
`url.next` is the corrupted `/2` (the rewrite treats the route name itself
as a page segment); following `/2` resolves to NotFound, not to a page
with currentPage 2, so the round-trip claim fails. -/
theorem c6_counterexample :
    searchForPage "/2020" [] ["$2020.astro"] = .found "$2020.astro" "/2020" (some 1) ∧
    (proceedCollectionOf (runCollectionEngine mod2020 "/2020" (some 1))).map
      (fun c => c.url.next) = some (some "/2") ∧
    searchForPage "/2" [] ["$2020.astro"] = .notFound := ⟨rfl, rfl, rfl⟩

/-! ### Claim C8 (counterexample) -/

/-- C8 counterexample: a path WITH an extension can also produce a 301 —
`/foo.txt` with only `foo.txt/index.astro` present redirects to
`/foo.txt/`, because the `{path}/index` probe is not guarded by the
extension check (only the collection lookup is).  The claim's trailing
slash half is proved in the amended theorem. -/
theorem c8_counterexample :
    searchForPage "/foo.txt" ["foo.txt/index.astro"] [] = .redirect "/foo.txt/" ∧
    extname "/foo.txt" = ".txt" := ⟨rfl, rfl⟩

/-! ### Claim C9 (counterexample) -/

/-- C9 counterexample: a render-time exception that is a ReferenceError
whose text contains "window is not defined" but carries the error code
`parse-error` is classified by the earlier parse-error branch: the
dispatcher returns kind `parse-error` with the RAW error attached, not the
`ssr` kind with the rewritten message. -/
theorem c9_counterexample :
    errWindowParse.cls = .referenceError ∧
    jsIncludes (errToString errWindowParse) "window is not defined" = true ∧
    load envSsrParse (some "/tag") = .failure "parse-error" errWindowParse none :=
  ⟨rfl, rfl, rfl⟩

/-! ### Claim C4 (amended) -/

/-- C4 (amended): for a served page p ≥ 1 with declared finite pageSize
N ≥ 1 over L records (page within bounds), the CollectionState satisfies
start = (p-1)·N, end = min(start+N, L) − 1 — the INCLUSIVE slice bound,
the only change from the claim — total = L, page.current = p,
page.last = ⌈L/N⌉ computed as (L+N-1)/N, and data equal to the dataset
sliced on [start, min(start+N, L)). -/
theorem c4_amended {Item : Type} (mod : PageModule Item) (cc : CreateCollection Item)
    (ld : Params → Except JsError (Option (List Item ⊕ Item))) (items : List Item)
    (reqPath : String) (c N : Int) (hc : 1 ≤ c) (hN : 1 ≤ N)
    (hmod : mod.createCollection = some (.ok cc))
    (hkeys : firstUnknownKey cc.keys = none)
    (hdata : cc.data = some ld)
    (hroutes : cc.routes = none) (hperma : cc.permalink = none)
    (hload : ld [] = .ok (some (.inl items)))
    (hps : cc.pageSize = some (.fin N))
    (hbound : (c - 1) * N < (items.length : Int)) :
    ∃ coll info,
      runCollectionEngine mod reqPath (some c) = .ok (.proceed (some coll) info) ∧
      coll.start = (c - 1) * N ∧
      coll.«end» = min ((c - 1) * N + N) (items.length : Int) - 1 ∧
      coll.total = items.length ∧
      coll.page.current = c ∧
      coll.page.last = (((items.length + N.toNat - 1) / N.toNat : ℕ) : Int) ∧
      coll.data = jsSlice items ((c - 1) * N) (min ((c - 1) * N + N) (items.length : Int)) := by
  have hrun := engine_run reqPath (some c) hmod hkeys hdata
    (routesStep_none hroutes hperma reqPath (some c)) hload
  rw [hps] at hrun
  have htr : jsToTruthyInt (some c) = some c := by
    simp [jsToTruthyInt, show ¬(c = 0) from by omega]
  have hdps : defaultPageSize (some (.fin N)) = .fin N := by
    simp [defaultPageSize, show ¬(N = 0) from by omega]
  have hstart0 : (0 : Int) ≤ (c - 1) * N :=
    mul_nonneg (by omega) (by omega)
  have hlen : ¬((jsSlice items ((c - 1) * N)
      (min ((c - 1) * N + N) (items.length : Int))).length = 0) := by
    apply jsSlice_length_ne_zero hstart0
    · exact lt_min (by omega) hbound
    · exact min_le_right _ _
  rw [hrun]
  simp only [engineTail, htr, hdps, dataAsList, sliceStart, sliceEnd, jsCeilDiv,
    if_pos (show (0 : Int) < N from by omega), hlen, if_false]
  exact ⟨_, _, rfl, rfl, rfl, rfl, rfl, rfl, rfl⟩

/-- C4 witness: the amended bounds at pageSize 10, 25 records, page 1. -/
theorem c4_amended_witness :
    ∃ coll info,
      runCollectionEngine modTag "/tag" (some 1) = .ok (.proceed (some coll) info) ∧
      coll.start = (1 - 1) * 10 ∧
      coll.«end» = min ((1 - 1) * 10 + 10) ((items25.length : Int)) - 1 ∧
      coll.total = items25.length ∧
      coll.page.current = 1 ∧
      coll.page.last = (((items25.length + (10 : Int).toNat - 1) / (10 : Int).toNat : ℕ) : Int) ∧
      coll.data = jsSlice items25 ((1 - 1) * 10)
        (min ((1 - 1) * 10 + 10) (items25.length : Int)) :=
  c4_amended modTag ccTag loader25 items25 "/tag" 1 10 (by decide) (by decide)
    rfl rfl rfl rfl rfl rfl rfl (by decide)

/-! ### Claim C5 -/

/-- C5: the engine never proceeds to a 200 render with an empty data slice,
and every empty-slice / empty-dataset 404 it emits still carries the
side-channel collection info (the additional-URL set and, when declared,
the RSS payload, which that info holds). -/
theorem c5_empty_slice {Item : Type} (mod : PageModule Item) (reqPath : String)
    (cp : Option Int) :
    (∀ (b : Bool) (ci : Option (CollectionInfo Item)),
      runCollectionEngine mod reqPath cp = .ok (.early (.notFound b ci)) →
        ci.isSome = true) ∧
    (∀ (coll : CollectionResult Item) (info : CollectionInfo Item),
      runCollectionEngine mod reqPath cp = .ok (.proceed (some coll) info) →
        coll.data ≠ []) :=
  ⟨fun _ _ h => engine_notFound_info h, fun _ _ h => (engine_proceed_props h).1⟩

/-- C5 witness: page 99 of the 25-record collection is beyond bounds; the
engine's 404 carries the collection info. -/
theorem c5_empty_slice_witness :
    (some (⟨["/tag/1", "/tag/2", "/tag/3"], none⟩ : CollectionInfo ℕ)).isSome = true :=
  (c5_empty_slice modTag "/tag" (some 99)).1 true
    (some ⟨["/tag/1", "/tag/2", "/tag/3"], none⟩) rfl

/-! ### Claim C7 -/

/-- C7: an unknown key in the collection declaration makes the engine fail
immediately with the configuration error naming that key, and the result
is independent of everything else in the declaration — in particular the
data loader is never consulted (any second module with the same key list
but arbitrary other fields produces the identical error). -/
theorem c7_unknown_key {Item : Type} (m1 m2 : PageModule Item)
    (cc1 cc2 : CreateCollection Item) (reqPath : String) (cp : Option Int) (k : String)
    (h1 : m1.createCollection = some (.ok cc1))
    (h2 : m2.createCollection = some (.ok cc2))
    (hkeys : cc2.keys = cc1.keys)
    (hk : firstUnknownKey cc1.keys = some k) :
    runCollectionEngine m1 reqPath cp = .error ⟨.plain, none, unknownOptionMsg k⟩ ∧
    runCollectionEngine m1 reqPath cp = runCollectionEngine m2 reqPath cp := by
  have e1 : runCollectionEngine m1 reqPath cp = .error ⟨.plain, none, unknownOptionMsg k⟩ := by
    simp only [runCollectionEngine, h1, hk]
  have e2 : runCollectionEngine m2 reqPath cp = .error ⟨.plain, none, unknownOptionMsg k⟩ := by
    simp only [runCollectionEngine, h2, hkeys, hk]
  exact ⟨e1, e1.trans e2.symm⟩

/-- C7 witness: the unknown option `foo`, with two different loaders. -/
theorem c7_unknown_key_witness :
    runCollectionEngine modUnknown "/tag" (some 1) =
      .error ⟨.plain, none, unknownOptionMsg "foo"⟩ ∧
    runCollectionEngine modUnknown "/tag" (some 1) =
      runCollectionEngine modUnknownAltLoader "/tag" (some 1) :=
  c7_unknown_key modUnknown modUnknownAltLoader ccUnknown
    { ccUnknown with data := some (fun _ => .ok (some (.inl [7]))) }
    "/tag" (some 1) "foo" rfl rfl rfl rfl

/-! ### Claim C8 (amended) -/

theorem findAnyPage_not_mem {cands fs : List String}
    (h : ∀ c ∈ cands, c ∉ fs) : findAnyPage cands fs = none := by
  induction cands with
  | nil => rfl
  | cons c t ih =>
    rw [findAnyPage, List.find?_cons]
    have hc : fs.contains c = false := by
      simpa using h c (by simp)
    rw [hc]
    exact ih (fun x hx => h x (by simp [hx]))

/-- A `{base}/index.*` candidate computed from a trailing-slash request is
never a well-formed file path: it is absolute (empty base) or contains
`//` (base ends in a slash). -/
theorem candidate_excluded {reqPath : String} {l : List Char}
    (hl : reqPath.data = l ++ ['/']) {X : String} {xs : List Char}
    (hX : X.data = '/' :: xs) {fs : List String}
    (hwf : ∀ f ∈ fs, jsIncludes f "//" = false ∧ strStartsWith f "/" = false) :
    (strDrop reqPath 1 ++ X) ∉ fs := by
  intro hmem
  obtain ⟨hii, hss⟩ := hwf _ hmem
  have hcd : (strDrop reqPath 1 ++ X).data = (l ++ ['/']).drop 1 ++ '/' :: xs := by
    rw [String.data_append, hX]
    show reqPath.data.drop 1 ++ _ = _
    rw [hl]
  cases l with
  | nil =>
    rw [show ((([] : List Char) ++ ['/']).drop 1) = [] from rfl, List.nil_append] at hcd
    have hstart : strStartsWith (strDrop reqPath 1 ++ X) "/" = true := by
      simp only [strStartsWith, hcd, show "/".data = ['/'] from rfl,
        List.isPrefixOf_iff_prefix]
      exact ⟨xs, rfl⟩
    rw [hstart] at hss
    cases hss
  | cons a l2 =>
    have hcd2 : (strDrop reqPath 1 ++ X).data = l2 ++ ['/', '/'] ++ xs := by
      rw [hcd]; simp
    have hinc : jsIncludes (strDrop reqPath 1 ++ X) "//" = true := by
      apply jsIncludes_iff_infix.mpr
      rw [hcd2, show "//".data = ['/', '/'] from rfl]
      exact List.infix_append l2 ['/', '/'] xs
    rw [hinc] at hii
    cases hii

/-- C8 (amended): over a well-formed file listing (no `//` inside a path,
no absolute entries), a trailing-slash request never produces a Redirect;
and every Redirect the resolver produces targets `reqPath ++ "/"`, comes
from a non-trailing-slash request, and is justified by an existing
`{path}/index.*` file — though the request path may well carry an
extension (the claim's "extensionless" restriction does not hold and is
dropped; see the counterexample). -/
theorem c8_amended (reqPath : String) (fs cfiles : List String)
    (hwf : ∀ f ∈ fs, jsIncludes f "//" = false ∧ strStartsWith f "/" = false) :
    (strEndsWith reqPath "/" = true →
      ∀ p, searchForPage reqPath fs cfiles ≠ .redirect p) ∧
    (∀ p, searchForPage reqPath fs cfiles = .redirect p →
      p = reqPath ++ "/" ∧ strEndsWith reqPath "/" = false ∧
      findAnyPage [strDrop reqPath 1 ++ "/index.astro",
        strDrop reqPath 1 ++ "/index.md"] fs ≠ none) := by
  have part1 : strEndsWith reqPath "/" = true →
      ∀ p, searchForPage reqPath fs cfiles ≠ .redirect p := by
    intro hends p h
    obtain ⟨l, hl⟩ : ∃ l, reqPath.data = l ++ ['/'] := by
      have hh := strEndsWith_single_iff.mp hends
      cases hrev : reqPath.data.reverse with
      | nil => rw [hrev] at hh; cases hh
      | cons d t =>
        rw [hrev] at hh
        have hd : d = '/' := by simpa using hh
        subst hd
        refine ⟨t.reverse, ?_⟩
        have h2 := congrArg List.reverse hrev
        simpa using h2
    have hnone : findAnyPage [strDrop reqPath 1 ++ "/index.astro",
        strDrop reqPath 1 ++ "/index.md"] fs = none := by
      apply findAnyPage_not_mem
      intro cand hcand
      rcases (by simpa using hcand : cand = strDrop reqPath 1 ++ "/index.astro" ∨
          cand = strDrop reqPath 1 ++ "/index.md") with rfl | rfl
      · exact candidate_excluded hl (show "/index.astro".data = '/' ::
          "index.astro".data from rfl) hwf
      · exact candidate_excluded hl (show "/index.md".data = '/' ::
          "index.md".data from rfl) hwf
    simp only [searchForPage] at h
    split at h
    · simp at h
    · rw [hnone] at h
      split at h
      · simp_all
      · split at h
        · split at h
          · simp at h
          · split at h <;> simp at h
        · split at h <;> simp at h
  refine ⟨part1, ?_⟩
  intro p h
  have hnotend : strEndsWith reqPath "/" = false := by
    cases he : strEndsWith reqPath "/" with
    | false => rfl
    | true => exact absurd h (part1 he p)
  simp only [searchForPage] at h
  split at h
  · simp at h
  · split at h
    · rename_i val heq
      simp only [SearchResult.redirect.injEq] at h
      refine ⟨h.symm, hnotend, ?_⟩
      rw [heq]
      simp
    · split at h
      · split at h
        · simp at h
        · split at h <;> simp at h
      · split at h <;> simp at h

/-- C8 witness: the trailing-slash request `/blog/` with `blog/index.astro`
present resolves Found, never Redirect. -/
theorem c8_amended_witness :
    searchForPage "/blog/" ["blog/index.astro"] [] ≠ .redirect "/blog//" :=
  (c8_amended "/blog/" ["blog/index.astro"] [] (by decide)).1 rfl "/blog//"

/-! ### Claim C9 (amended) -/

/-- C9 (amended): a render-time ReferenceError whose text contains
"window is not defined" and which does NOT carry the `parse-error` code
(the classifier's first check) makes the dispatcher return a 500 of kind
`ssr` whose attached error is the rewritten guidance message — a message
built solely from the request path, independent of the raw error text. -/
theorem c9_amended {Item : Type} (env : Env Item) (P pn loc : String) (cp : Option Int)
    (mod : PageModule Item) (coll : Option (CollectionResult Item))
    (info : CollectionInfo Item) (err : JsError)
    (hP : ¬(P = ""))
    (hstatic : env.loadStaticFile (jsRewritePath P) = .error ())
    (hfront : strStartsWith (jsRewritePath P) env.astroFrontend = false)
    (hsearch : searchForPage P env.fs env.collectionFiles = .found loc pn cp)
    (hmodload : env.loadModule loc = .ok mod)
    (hengine : runCollectionEngine mod (jsRewritePath P) cp = .ok (.proceed coll info))
    (hrender : ∀ a, mod.renderPage a = .error err)
    (hcls : err.cls = .referenceError)
    (hcode : ¬(err.code = some "parse-error"))
    (hmsg : jsIncludes (errToString err) "window is not defined" = true) :
    load env (some P) = .failure "ssr" ⟨.plain, none, ssrMessage (jsRewritePath P)⟩ none := by
  have hclassify : classifyError env err (jsRewritePath P) (some P) =
      .failure "ssr" ⟨.plain, none, ssrMessage (jsRewritePath P)⟩ none := by
    simp [classifyError, hcode, hcls, hmsg]
  simp only [load, hP, if_false, hstatic, hfront, Bool.false_eq_true, hsearch,
    loadFound, hmodload, hengine, hrender, hclassify]

/-- C9 witness: the dispatcher rewrites the raw `window is not defined`
render error on `/tag` into the fixed SSR guidance message. -/
theorem c9_amended_witness :
    load envSsr (some "/tag") =
      .failure "ssr" ⟨.plain, none, ssrMessage (jsRewritePath "/tag")⟩ none :=
  c9_amended envSsr "/tag" "/tag" "$tag.astro" (some 1) modSsr _ _ errWindow
    (by decide) rfl rfl rfl rfl rfl (fun _ => rfl) rfl (by decide) rfl

/-! ### Claim C10 -/

/-- C10: for every trailing-slash request path P, the dispatcher rewrites
the request path to P ++ "index.html" before any lookup: the static probe
and the bundler-transform fallback are consulted at the rewritten path
while the page resolver receives the original P, and a collection page
served through such a URL carries url.current = P ++ "index.html". -/
theorem c10_rewrite {Item : Type} (env : Env Item) (P : String)
    (hends : strEndsWith P "/" = true) (hP : ¬(P = "")) :
    jsRewritePath P = P ++ "index.html" ∧
    (∀ r, env.loadStaticFile (P ++ "index.html") = .ok r → r.statusCode = 200 →
      load env (some P) = .success r.contentType r.contents none) ∧
    (∀ code, env.loadStaticFile (P ++ "index.html") = .error () →
      strStartsWith (P ++ "index.html") env.astroFrontend = false →
      searchForPage P env.fs env.collectionFiles = .notFound →
      env.transformRequest (P ++ "index.html") = .ok (some code) →
      load env (some P) = .success
        (some ((env.mimeType (P ++ "index.html")).getD "text/plain")) code none) ∧
    (∀ (mod : PageModule Item) (cp : Option Int) (coll : CollectionResult Item)
        (info : CollectionInfo Item),
      runCollectionEngine mod (P ++ "index.html") cp = .ok (.proceed (some coll) info) →
      coll.url.current = P ++ "index.html") := by
  have hrw : jsRewritePath P = P ++ "index.html" := by simp [jsRewritePath, hends]
  refine ⟨hrw, ?_, ?_, ?_⟩
  · intro r hr h200
    simp only [load, hP, if_false, hrw, hr, h200, if_true]
  · intro code hse hfront hsearch htrans
    simp only [load, hP, if_false, hrw, hse, hfront, Bool.false_eq_true, hsearch, htrans]
  · intro mod cp coll info h
    exact (engine_proceed_props h).2

/-- C10 witness: a static file served at the rewritten path `/d/index.html`
answers the trailing-slash request `/d/`. -/
theorem c10_rewrite_witness :
    load envStatic (some "/d/") = .success (some "text/css") "body" none :=
  (c10_rewrite envStatic "/d/" rfl (by decide)).2.1 ⟨200, "body", some "text/css"⟩ rfl rfl

/-! ### Claim C6 (amended) -/

theorem intDecimal_coe (n : ℕ) : intDecimal ((n : ℕ) : Int) = natDecimal n := by
  rw [intDecimal, if_neg (by omega), Int.toNat_natCast]

/-- The last character of a string whose reversed head is a non-digit. -/
theorem last_char_not_digit {s : String} {d : Char}
    (hd : s.data.reverse.head? = some d) (hdig : jsDigit d = false) :
    ∀ l ch, s.data = l ++ [ch] → jsDigit ch = false := by
  intro l ch hc
  rw [hc, List.reverse_append] at hd
  have hcd : ch = d := by simpa using hd
  rw [hcd, hdig]

/-- The trailing-page rewrite on a canonical page URL of a route whose name
does not end in a digit: the page segment (or nothing) is replaced. -/
theorem rtpo_pageURL {nm : String} (hne : nm.data ≠ [])
    (hlast : ∀ l ch, nm.data = l ++ [ch] → jsDigit ch = false)
    {p : ℕ} (rep : String) :
    replaceTrailingPageOpt (pageURL nm p) rep = "/" ++ nm ++ rep := by
  by_cases h1 : p = 1
  · subst h1
    rw [pageURL, if_pos rfl]
    obtain ⟨l, ch, hcat, -⟩ := last_concat_of_ne_nil hne
    have hdata : ("/" ++ nm).data = ('/' :: l) ++ [ch] := by
      rw [data_slash_name, hcat]; rfl
    rw [rtpo_no_digit_tail hdata (hlast l ch hcat) rep]
  · rw [pageURL, if_neg h1, rtpo_digit_tail ("/" ++ nm) p rep]

/-- C6 (amended): for a collection route whose name does not end in a
digit (and has no slash or dot), served at the canonical page URLs with
finite pageSize N ≥ 1 over L records: url.next is present exactly when
p·N < L and points at `/name/(p+1)`, which the resolver follows to
currentPage p+1; url.prev is present exactly when p > 1 and points at the
canonical URL of page p−1 (with the `/1` segment omitted), which the
resolver follows to currentPage p−1. -/
theorem c6_amended {Item : Type} (mod : PageModule Item) (cc : CreateCollection Item)
    (ld : Params → Except JsError (Option (List Item ⊕ Item))) (items : List Item)
    (nm : String) (p N : ℕ)
    (hne : nm.data ≠ []) (hns : ∀ c ∈ nm.data, c ≠ '/') (hnd : ∀ c ∈ nm.data, c ≠ '.')
    (hlast : ∀ l ch, nm.data = l ++ [ch] → jsDigit ch = false)
    (hp : 1 ≤ p) (hN : 1 ≤ N)
    (hmod : mod.createCollection = some (.ok cc))
    (hkeys : firstUnknownKey cc.keys = none)
    (hdata : cc.data = some ld)
    (hroutes : cc.routes = none) (hperma : cc.permalink = none)
    (hload : ld [] = .ok (some (.inl items)))
    (hps : cc.pageSize = some (.fin (N : Int)))
    (hbound : (p - 1) * N < items.length) :
    ∃ coll info,
      runCollectionEngine mod (pageURL nm p) (some (p : Int)) =
        .ok (.proceed (some coll) info) ∧
      coll.url.next = (if p * N < items.length
        then some ("/" ++ nm ++ "/" ++ natDecimal (p + 1)) else none) ∧
      coll.url.prev = (if 1 < p then some (pageURL nm (p - 1)) else none) ∧
      searchForPage ("/" ++ nm ++ "/" ++ natDecimal (p + 1)) [] ["$" ++ nm ++ ".astro"] =
        .found ("$" ++ nm ++ ".astro") ("/" ++ nm ++ "/" ++ natDecimal (p + 1))
          (some ((p : Int) + 1)) ∧
      (1 < p → searchForPage (pageURL nm (p - 1)) [] ["$" ++ nm ++ ".astro"] =
        .found ("$" ++ nm ++ ".astro") (pageURL nm (p - 1)) (some ((p : Int) - 1))) := by
  have hrun := engine_run (pageURL nm p) (some (p : Int)) hmod hkeys hdata
    (routesStep_none hroutes hperma _ _) hload
  rw [hps] at hrun
  have htr : jsToTruthyInt (some (p : Int)) = some (p : Int) := by
    simp [jsToTruthyInt, show ¬((p : Int) = 0) from by omega]
  have hdps : defaultPageSize (some (.fin (N : Int))) = .fin (N : Int) := by
    simp [defaultPageSize, show ¬((N : Int) = 0) from by omega]
  have hstart0 : (0 : Int) ≤ ((p : Int) - 1) * (N : Int) :=
    mul_nonneg (by omega : (0 : Int) ≤ (p : Int) - 1) (by positivity)
  have hboundZ : ((p : Int) - 1) * (N : Int) < (items.length : Int) := by
    have hc : ((p : Int) - 1) = ((p - 1 : ℕ) : Int) := by omega
    rw [hc]
    exact_mod_cast hbound
  have hlen : ¬((jsSlice items (((p : Int) - 1) * (N : Int))
      (min (((p : Int) - 1) * (N : Int) + (N : Int)) (items.length : Int))).length = 0) := by
    apply jsSlice_length_ne_zero hstart0
    · exact lt_min (by omega) hboundZ
    · exact min_le_right _ _
  rw [hrun]
  simp only [engineTail, htr, hdps, dataAsList, sliceStart, sliceEnd, hlen, if_false]
  refine ⟨_, _, rfl, ?_, ?_, ?_, ?_⟩
  · -- url.next
    by_cases hpn : p * N < items.length
    · have hcondZ : min (((p : Int) - 1) * (N : Int) + (N : Int)) (items.length : Int) <
          (items.length : Int) := by
        apply min_lt_iff.mpr
        left
        have : ((p : Int) - 1) * (N : Int) + (N : Int) = ((p * N : ℕ) : Int) := by
          push_cast
          ring
        rw [this]
        exact_mod_cast hpn
      have hnext : replaceTrailingPageOpt (pageURL nm p) ("/" ++ intDecimal ((p : Int) + 1)) =
          "/" ++ nm ++ "/" ++ natDecimal (p + 1) := by
        rw [show ((p : Int) + 1) = ((p + 1 : ℕ) : Int) from by push_cast; ring,
          intDecimal_coe, rtpo_pageURL hne hlast]
        apply String.ext
        simp [String.data_append]
      rw [if_pos hcondZ, if_pos hpn, hnext]
    · have hcondZ : ¬(min (((p : Int) - 1) * (N : Int) + (N : Int)) (items.length : Int) <
          (items.length : Int)) := by
        intro hlt
        rcases min_lt_iff.mp hlt with hlt | hlt
        · apply hpn
          have : ((p : Int) - 1) * (N : Int) + (N : Int) = ((p * N : ℕ) : Int) := by
            push_cast
            ring
          rw [this] at hlt
          exact_mod_cast hlt
        · omega
      rw [if_neg hcondZ, if_neg hpn]
  · -- url.prev
    by_cases h2 : 1 < p
    · have h2Z : (1 : Int) < (p : Int) := by exact_mod_cast h2
      rw [if_pos h2Z, if_pos h2]
      have hun : jsOrIntDefault ((p : Int) - 1) 1 = ((p - 1 : ℕ) : Int) := by
        rw [jsOrIntDefault, if_neg (by omega)]
        omega
      rw [hun, intDecimal_coe, pageURL, if_neg (by omega : ¬(p = 1)),
        rtd_digit_tail ("/" ++ nm) p (natDecimal (p - 1))]
      by_cases hp2 : p = 2
      · subst hp2
        rw [show natDecimal (2 - 1) = "1" from rfl,
          show ("/" ++ nm ++ "/" ++ "1") = ("/" ++ nm) ++ "/1" from by
            apply String.ext
            simp [String.data_append],
          rs1_slash_one, pageURL, if_pos rfl]
      · rw [rs1_no_one (by omega : 2 ≤ p - 1), pageURL,
          if_neg (by omega : ¬(p - 1 = 1))]
    · have h2Z : ¬((1 : Int) < (p : Int)) := by exact_mod_cast h2
      rw [if_neg h2Z, if_neg h2]
  · -- following next resolves to page p + 1
    rw [show ((p : Int) + 1) = ((p + 1 : ℕ) : Int) from by push_cast; ring]
    exact searchForPage_collection_page hne hns (by omega)
  · -- following prev resolves to page p - 1
    intro h2
    by_cases hp2 : p = 2
    · subst hp2
      rw [show (2 - 1 : ℕ) = 1 from rfl, pageURL, if_pos rfl,
        show ((2 : ℕ) : Int) - 1 = ((1 : ℕ) : Int) from by norm_num]
      exact searchForPage_collection hne hns hnd
    · rw [pageURL, if_neg (by omega : ¬(p - 1 = 1)),
        show ((p : Int) - 1) = ((p - 1 : ℕ) : Int) from by omega]
      exact searchForPage_collection_page hne hns (by omega)

/-- C6 witness: route `tag`, pageSize 1, 3 records, page 2: next `/tag/3`,
prev `/tag`, both resolving to pages 3 and 1. -/
theorem c6_amended_witness :
    ∃ coll info,
      runCollectionEngine
        { modTag with createCollection := some (.ok
            { keys := ["data", "pageSize"],
              data := some (fun _ => .ok (some (.inl [0, 1, 2]))), routes := none,
              permalink := none, pageSize := some (.fin 1), rss := none }) }
        (pageURL "tag" 2) (some ((2 : ℕ) : Int)) = .ok (.proceed (some coll) info) ∧
      coll.url.next = (if 2 * 1 < [0, 1, 2].length
        then some ("/" ++ "tag" ++ "/" ++ natDecimal (2 + 1)) else none) ∧
      coll.url.prev = (if 1 < 2 then some (pageURL "tag" (2 - 1)) else none) ∧
      searchForPage ("/" ++ "tag" ++ "/" ++ natDecimal (2 + 1)) [] ["$" ++ "tag" ++ ".astro"] =
        .found ("$" ++ "tag" ++ ".astro") ("/" ++ "tag" ++ "/" ++ natDecimal (2 + 1))
          (some (((2 : ℕ) : Int) + 1)) ∧
      (1 < 2 → searchForPage (pageURL "tag" (2 - 1)) [] ["$" ++ "tag" ++ ".astro"] =
        .found ("$" ++ "tag" ++ ".astro") (pageURL "tag" (2 - 1))
          (some (((2 : ℕ) : Int) - 1))) :=
  c6_amended _ _ _ [0, 1, 2] "tag" 2 1 (by decide) (by decide) (by decide)
    (last_char_not_digit (d := 'g') rfl rfl) (by decide) (by decide)
    rfl rfl rfl rfl rfl rfl rfl (by decide)

end Astro
